import Mathlib

/-!
Verification of the mas-socket core (src/server.ts, src/client-browser.ts,
src/type.ts) against its specification.

The TypeScript source is shallowly embedded as follows.

* JavaScript `Map` objects and plain string-keyed objects are modelled as
  insertion-ordered association lists `List (String × β)`; `Map.set`
  updates the existing entry in place or appends, `Map.delete` removes the
  entry with the given key, lookup returns the entry for the key.
* JavaScript `Set` objects are modelled as insertion-ordered duplicate-free
  lists: `add` appends when absent, `delete` removes the element.
* `any`-typed payloads are modelled by the small value universe `JValue`;
  `JValue.msgObj code data msg` models an object literal of the shape
  `{ code, data, msg }` (the `Message` interface of src/type.ts).
* Effects (WebSocket sends, promise resolution/rejection, side effects of
  user handlers) are collected in an explicit `Output` trace.
* `randomUUID` is nondeterministic, so freshly generated fetch ids are
  supplied as an explicit input list.
-/

namespace MasSocket

/-- Model of `any`-typed JSON-ish values flowing through the library.
`msgObj c d m` models the object literal `{ code: c, data: d, msg: m }`. -/
inductive JValue where
  | null
  | bool (b : Bool)
  | num (n : Int)
  | str (s : String)
  | msgObj (code : Int) (data : JValue) (msg : String)
deriving DecidableEq, Repr

/-! ### Association-list maps and insertion-ordered sets

These model JavaScript `Map`/object maps and `Set` values. -/

/-- Lookup in an insertion-ordered string-keyed map (JS `Map.get` / `obj[k]`). -/
def lookupK {β : Type} : List (String × β) → String → Option β
  | [], _ => none
  | e :: rest, k => if e.1 = k then some e.2 else lookupK rest k

/-- JS `Map.set` / `obj[k] = v`: update the existing entry in place,
else append a new one. -/
def mapSet {β : Type} : List (String × β) → String → β → List (String × β)
  | [], k, v => [(k, v)]
  | e :: rest, k, v => if e.1 = k then (k, v) :: rest else e :: mapSet rest k v

/-- JS `Map.delete k` / `delete obj[k]`. -/
def mapDel {β : Type} : List (String × β) → String → List (String × β)
  | [], _ => []
  | e :: rest, k => if e.1 = k then mapDel rest k else e :: mapDel rest k

/-- Boolean membership in a list of strings (JS `Set.has` / `Array.includes`). -/
def memS : List String → String → Bool
  | [], _ => false
  | y :: ys, x => if y = x then true else memS ys x

/-- JS `Set.add`: append when absent. -/
def setAdd (l : List String) (x : String) : List String :=
  if memS l x then l else l ++ [x]

/-- JS `Set.delete`: remove the element (sets hold no duplicates). -/
def setDel : List String → String → List String
  | [], _ => []
  | y :: ys, x => if y = x then setDel ys x else y :: setDel ys x

/-- JS `Array.splice(indexOf x, 1)`: remove the first occurrence. -/
def eraseFirst : List String → String → List String
  | [], _ => []
  | y :: ys, x => if y = x then ys else y :: eraseFirst ys x

/-- Duplicate-freeness of a list of strings. -/
def nodupS : List String → Bool
  | [] => true
  | x :: xs => !(memS xs x) && nodupS xs

/-- Duplicate-freeness of the keys of a map. -/
def keysNodupB {β : Type} (l : List (String × β)) : Bool :=
  nodupS (l.map Prod.fst)

/-! ### Data model (src/type.ts and the private state of MasSocketServer) -/

/-- `User` from src/type.ts. -/
structure User where
  id : String
  groups : List String
deriving DecidableEq, Repr

/-- The `type` field of `InternalMessage`: the string union `'event' | 'reply'`. -/
inductive MType where
  | event
  | reply
deriving DecidableEq, Repr

/-- `InternalMessage` from src/type.ts. The code destructures with defaults
`fetchId = ''` and `header = {}` and tests `event` and `fetchId` for
truthiness, so an absent/empty `event` or `fetchId` is modelled uniformly
as the empty string, and an absent header as the empty mapping. -/
structure InternalMessage where
  type : MType
  event : String
  fetchId : String
  body : JValue
  header : List (String × String)
deriving DecidableEq, Repr

/-- `PendingFetch` from src/type.ts as stored by the server: the record keeps
the owning client id (`clientId`).  The `resolve`/`reject` continuations and
the platform timer handle are represented by the `Output` trace below. -/
structure PendingFetch where
  clientId : String
deriving DecidableEq, Repr

/-- The mutable private state of `MasSocketServer`:
`clients`, `pendingFetches`, `clientPendingFetches` and `_groups`. -/
structure ServerState where
  clients : List (String × User)
  pendingFetches : List (String × PendingFetch)
  clientPendingFetches : List (String × List String)
  groups : List (String × List String)
deriving DecidableEq, Repr

/-- Observable effects of one execution step:
`sent dest m` models `sendMessage(ws_of_dest, m)`, `resolved`/`rejected`
model settling the promise registered under a fetch id, and `effect`
models an arbitrary side effect performed by a user-supplied middleware
or event handler body. -/
inductive Output where
  | sent (dest : String) (m : InternalMessage)
  | resolved (fetchId : String) (body : JValue)
  | rejected (fetchId : String) (err : String)
  | effect (tag : Nat)
deriving DecidableEq, Repr

/-! ### Pending-request tracker (server.ts) -/

/-- The duplicated reverse-index cleanup block of server.ts
(lines 228-237 in `handleMessage` and 479-491 in the timeout callback):
remove `fid` from the owner's set in `clientPendingFetches` and drop the
owner's entry entirely when its set becomes empty. -/
def dropFromClientIndex (cpf : List (String × List String)) (cid fid : String) :
    List (String × List String) :=
  match lookupK cpf cid with
  | some s =>
    let s2 := setDel s fid
    if s2.isEmpty then mapDel cpf cid else mapSet cpf cid s2
  | none => cpf

/-- The `type === 'reply' && fetchId` branch of `handleMessage`
(server.ts lines 222-242): if the correlation id is pending, clear its
timer, remove it from the primary map and the reverse index, and resolve
the stored promise with the reply body; otherwise do nothing. -/
def resolveReply (st : ServerState) (fid : String) (body : JValue) :
    ServerState × List Output :=
  match lookupK st.pendingFetches fid with
  | none => (st, [])
  | some pf =>
    ({ st with
        pendingFetches := mapDel st.pendingFetches fid,
        clientPendingFetches := dropFromClientIndex st.clientPendingFetches pf.clientId fid },
     [Output.resolved fid body])

/-- The deadline callback registered by `fetch` (server.ts lines 478-494):
clean the reverse index if the id is still pending, delete the id from the
primary map, and reject the promise with the timeout error.  When the id is
no longer pending the promise has already been settled, so the unconditional
`reject(...)` call in the source is a no-op by promise semantics and the
model emits nothing. -/
def expireStep (st : ServerState) (fid : String) (maxWait : Nat) :
    ServerState × List Output :=
  match lookupK st.pendingFetches fid with
  | none => ({ st with pendingFetches := mapDel st.pendingFetches fid }, [])
  | some pf =>
    ({ st with
        pendingFetches := mapDel st.pendingFetches fid,
        clientPendingFetches := dropFromClientIndex st.clientPendingFetches pf.clientId fid },
     [Output.rejected fid ("Request timeout after " ++ toString maxWait ++ "ms")])

/-- The per-owner cancellation loop of `cleanupClient`
(server.ts lines 149-158): for each fetch id in the owner's reverse-index
set, if it is still pending, clear its timer, reject its promise with the
disconnect error and delete it from the primary map. -/
def cancelFids : List (String × PendingFetch) → List String →
    List (String × PendingFetch) × List Output
  | pend, [] => (pend, [])
  | pend, fid :: rest =>
    match lookupK pend fid with
    | some _ =>
      let r := cancelFids (mapDel pend fid) rest
      (r.1, Output.rejected fid "Client disconnected" :: r.2)
    | none => cancelFids pend rest

/-- The group-removal loop of `cleanupClient` (server.ts lines 162-172):
for each group in the disconnecting user's list, delete the client from the
group's member set and delete the group when it becomes empty. -/
def dropPeerFromGroups (cid : String) :
    List (String × List String) → List String → List (String × List String)
  | gs, [] => gs
  | gs, g :: rest =>
    let gs2 :=
      match lookupK gs g with
      | some ms =>
        let ms2 := setDel ms cid
        if ms2.isEmpty then mapDel gs g else mapSet gs g ms2
      | none => gs
    dropPeerFromGroups cid gs2 rest

/-- `cleanupClient` (server.ts lines 144-179): on disconnect, reject all of
the owner's pending requests via the reverse index, clear the owner's
reverse-index entry, remove the peer from every group it belongs to, and
remove it from the client map.  (The clients-list cache refresh is not
modelled: the cache is derived state.) -/
def cleanupClient (st : ServerState) (clientId : String) : ServerState × List Output :=
  match lookupK st.clients clientId with
  | none => (st, [])
  | some user =>
    let fids := (lookupK st.clientPendingFetches clientId).getD []
    let pr := cancelFids st.pendingFetches fids
    ({ clients := mapDel st.clients clientId,
       pendingFetches := pr.1,
       clientPendingFetches := mapDel st.clientPendingFetches clientId,
       groups := dropPeerFromGroups clientId st.groups user.groups },
     pr.2)

/-- Registration of one pending request inside `fetch`
(server.ts lines 496-515): store the record under the fresh fetch id and
add the id to the owner's reverse-index set (creating it if needed). -/
def registerPending (st : ServerState) (fid cid : String) : ServerState :=
  { st with
      pendingFetches := mapSet st.pendingFetches fid { clientId := cid },
      clientPendingFetches :=
        match lookupK st.clientPendingFetches cid with
        | some s => mapSet st.clientPendingFetches cid (setAdd s fid)
        | none => st.clientPendingFetches ++ [(cid, [fid])] }

/-- Completeness of the reverse index: every pending request appears in its
owner's set in `clientPendingFetches`.  This invariant is established by
`registerPending` and maintained by every removal path; `cleanupClient`
relies on it to find all of a disconnecting owner's requests. -/
def revIndexOK (st : ServerState) : Bool :=
  st.pendingFetches.all (fun e =>
    match lookupK st.clientPendingFetches e.2.clientId with
    | some s => memS s e.1
    | none => false)

/-! ### Group registry (server.ts `addGroup` / `removeGroup`) -/

/-- `addGroup` (server.ts lines 327-345).  Throws `Client <id> not found`
when the id is not a live connection — the throw precedes every mutation,
so the error result carries no state change.  Otherwise add the id to the
group's member set (creating the group lazily) and push the group onto the
user's own list unless already present. -/
def addGroup (group id : String) (st : ServerState) : Except String ServerState :=
  if (lookupK st.clients id).isNone then
    Except.error ("Client " ++ id ++ " not found")
  else
    let groups2 :=
      match lookupK st.groups group with
      | none => st.groups ++ [(group, [id])]
      | some ms => mapSet st.groups group (setAdd ms id)
    let clients2 :=
      match lookupK st.clients id with
      | some u => mapSet st.clients id { u with groups := setAdd u.groups group }
      | none => st.clients
    Except.ok { st with groups := groups2, clients := clients2 }

/-- `removeGroup` (server.ts lines 352-374).  Throws `Client <id> not found`
when the id is not a live connection, before any mutation.  Otherwise delete
the id from the group's member set, delete the group entirely once empty,
and splice the group out of the user's own list (first occurrence). -/
def removeGroup (group id : String) (st : ServerState) : Except String ServerState :=
  if (lookupK st.clients id).isNone then
    Except.error ("Client " ++ id ++ " not found")
  else
    let groups2 :=
      match lookupK st.groups group with
      | none => st.groups
      | some ms =>
        let ms2 := setDel ms id
        if ms2.isEmpty then mapDel st.groups group else mapSet st.groups group ms2
    let clients2 :=
      match lookupK st.clients id with
      | some u => mapSet st.clients id { u with groups := eraseFirst u.groups group }
      | none => st.clients
    Except.ok { st with groups := groups2, clients := clients2 }

/-- The member-collection loop shared by `fetchByGroup` and `closeByGroups`
(server.ts lines 560-568 and 393-401): the de-duplicated union of the member
sets of the named groups, in insertion order; unknown names contribute
nothing. -/
def membersOf (st : ServerState) (names : List String) : List String :=
  names.foldl
    (fun acc g =>
      match lookupK st.groups g with
      | some ms => ms.foldl setAdd acc
      | none => acc)
    []

/-- Membership of peer `p` in group `g` as recorded by the group-to-members
index `_groups`. -/
def memGroup (st : ServerState) (g p : String) : Bool :=
  match lookupK st.groups g with
  | some ms => memS ms p
  | none => false

/-- Membership of group `g` in peer `p`'s own `user.groups` list. -/
def memUserGroups (st : ServerState) (g p : String) : Bool :=
  match lookupK st.clients p with
  | some u => memS u.groups g
  | none => false

/-- Mutual consistency of the two group indices over their finite support:
every member of a group set records the group in its own list, and every
group in a user's list records the user in its member set. -/
def consistentB (st : ServerState) : Bool :=
  st.groups.all (fun e => e.2.all (fun p => memUserGroups st e.1 p)) &&
  st.clients.all (fun e => e.2.groups.all (fun g => memGroup st g e.1))

/-- Structural well-formedness of the group state: both maps have
duplicate-free keys, member sets are duplicate-free and each user's group
list is duplicate-free. -/
def wfGroupsB (st : ServerState) : Bool :=
  keysNodupB st.clients && keysNodupB st.groups &&
  st.groups.all (fun e => nodupS e.2) &&
  st.clients.all (fun e => nodupS e.2.groups)

/-! ### Middleware / dispatch pipeline (server.ts `handleMessage`,
event branch, lines 245-318)

A user-supplied middleware or event-handler body is modelled as a `Script`:
the sequence of observable actions it performs when run.  `callReply d`
models an invocation `reply(d)` of the reply capability, `sideEffect t`
models any other side effect, and `throwErr` models the body throwing. -/

inductive HAction where
  | callReply (data : JValue)
  | sideEffect (tag : Nat)
  | throwErr
deriving DecidableEq, Repr

/-- One middleware or event-handler body, as the sequence of its actions. -/
abbrev Script := List HAction

/-- The reply envelope built by the `reply` capability
(server.ts lines 250-254): `{ type: 'reply', fetchId, body: data }`.
The body is the `data` argument verbatim. -/
def mkReplyEnvelope (fid : String) (body : JValue) : InternalMessage :=
  { type := MType.reply, event := "", fetchId := fid, body := body, header := [] }

/-- Run one middleware/handler body.  The `replied` flag is the closed-over
`replied` variable; `reply` sends exactly when the flag is still false and
then sets it (lines 247-255).  Returns the final flag, the trace of outputs
in execution order, and whether the body threw. -/
def runScript (dest fid : String) : Bool → Script → Bool × List Output × Bool
  | replied, [] => (replied, [], false)
  | replied, HAction.callReply d :: rest =>
    if replied then runScript dest fid replied rest
    else
      let r := runScript dest fid true rest
      (r.1, Output.sent dest (mkReplyEnvelope fid d) :: r.2.1, r.2.2)
  | replied, HAction.sideEffect t :: rest =>
    let r := runScript dest fid replied rest
    (r.1, Output.effect t :: r.2.1, r.2.2)
  | _replied, HAction.throwErr :: _ => (_replied, [], true)

/-- Run a chain of bodies with the short-circuit and error semantics shared
by the middleware loop (lines 258-280) and the handler loop (lines 285-307):
before each body, stop if already replied; a thrown error is caught,
converted to a code-500 reply with message `errMsg` if no reply was sent
yet, and aborts the whole dispatch (the `return` in the catch block).
Returns the final flag, the trace, and the abort marker. -/
def runChain (errMsg : String) (dest fid : String) :
    Bool → List Script → Bool × List Output × Bool
  | replied, [] => (replied, [], false)
  | replied, s :: rest =>
    if replied then (replied, [], false)
    else
      let r := runScript dest fid replied s
      if r.2.2 then
        if r.1 then (r.1, r.2.1, true)
        else
          (true,
           r.2.1 ++ [Output.sent dest (mkReplyEnvelope fid (JValue.msgObj 500 JValue.null errMsg))],
           true)
      else
        let r2 := runChain errMsg dest fid r.1 rest
        (r2.1, r.2.1 ++ r2.2.1, r2.2.2)

/-- The `type === 'event' && event` branch of `handleMessage`
(server.ts lines 245-318): run the middlewares, then — only if no reply was
sent and no middleware aborted — the handlers registered for the event, then
the automatic 404 reply when still unreplied and a correlation id is
present. -/
def runEventPipeline (dest : String) (mws hs : List Script) (event fid : String) :
    List Output :=
  if (runChain "Middleware error" dest fid false mws).2.2 then
    (runChain "Middleware error" dest fid false mws).2.1
  else if (runChain "Middleware error" dest fid false mws).1 then
    (runChain "Middleware error" dest fid false mws).2.1
  else if (runChain "Handler error" dest fid false hs).2.2 then
    (runChain "Middleware error" dest fid false mws).2.1
      ++ (runChain "Handler error" dest fid false hs).2.1
  else if (runChain "Handler error" dest fid false hs).1 = false ∧ fid ≠ "" then
    (runChain "Middleware error" dest fid false mws).2.1
      ++ (runChain "Handler error" dest fid false hs).2.1
      ++ [Output.sent dest
            (mkReplyEnvelope fid
              (JValue.msgObj 404 JValue.null ("No handler for event: " ++ event)))]
  else
    (runChain "Middleware error" dest fid false mws).2.1
      ++ (runChain "Handler error" dest fid false hs).2.1

/-! ### handleMessage (server.ts lines 184-319) -/

/-- An inbound raw WebSocket frame, abstracted by the two observations the
code makes of it: `size` is `Buffer.byteLength(rawMessage, 'utf8')` and
`parsed` is the result of `JSON.parse(rawMessage)` (`none` models a parse
failure). -/
structure RawMsg where
  size : Nat
  parsed : Option InternalMessage
deriving DecidableEq, Repr

/-- The protocol error reply sent without a correlation id
(the 413 and 400 paths of `handleMessage`). -/
def protocolErrorReply (code : Int) (msg : String) : InternalMessage :=
  { type := MType.reply, event := "", fetchId := "", body := JValue.msgObj code JValue.null msg,
    header := [] }

/-- `handleMessage` (server.ts lines 184-319).  The registration state
(`middlewares` and `eventHandlers`) and the `maxMessageSize` limit are
passed explicitly; `user` is the connection's identity, used as the
destination of sends on this socket.

Order of checks, as in the source: size limit (413, no parsing), parse
failure (400), reply dispatch to the pending tracker, event dispatch to the
pipeline; any other message falls through with no effect. -/
def handleMessage (maxMessageSize : Nat) (mws : List Script)
    (eventHandlers : List (String × List Script)) (st : ServerState) (user : User)
    (raw : RawMsg) : ServerState × List Output :=
  if maxMessageSize < raw.size then
    (st, [Output.sent user.id
      (protocolErrorReply 413
        ("Message too large. Maximum size is " ++ toString maxMessageSize ++ " bytes"))])
  else
    match raw.parsed with
    | none => (st, [Output.sent user.id (protocolErrorReply 400 "Invalid message format")])
    | some m =>
      if m.type = MType.reply ∧ m.fetchId ≠ "" then
        resolveReply st m.fetchId m.body
      else if m.type = MType.event ∧ m.event ≠ "" then
        (st, runEventPipeline user.id mws ((lookupK eventHandlers m.event).getD []) m.event
          m.fetchId)
      else (st, [])

/-! ### Fetch engine (server.ts `fetch`, lines 430-540) -/

/-- `FetchConfig` from src/type.ts: all fields optional. -/
structure FetchConfigO where
  maxWait : Option Nat
  hasReply : Option Bool
  code : Option Int
  msg : Option String
deriving DecidableEq, Repr

/-- The server's default `fetchConfig` (server.ts lines 54-59). -/
def defaultFetchConfig : FetchConfigO :=
  { maxWait := some 10000, hasReply := some true, code := some 200, msg := some "success" }

/-- `{ ...this.fetchConfig, ...config }` (server.ts line 437): fields present
in the per-call config override the instance defaults. -/
def mergeConfig (base : FetchConfigO) (config : Option FetchConfigO) : FetchConfigO :=
  match config with
  | none => base
  | some c =>
    { maxWait := (c.maxWait).rec base.maxWait (fun v => some v),
      hasReply := (c.hasReply).rec base.hasReply (fun v => some v),
      code := (c.code).rec base.code (fun v => some v),
      msg := (c.msg).rec base.msg (fun v => some v) }

/-- The immediate per-target outcome of a `fetch` with `hasReply`:
either the immediately-rejected promise for an unknown target id
(server.ts lines 469-474) or a registered pending request. -/
inductive TargetOutcome where
  | notFound (id : String)
  | pending (fetchId : String)
deriving DecidableEq, Repr

/-- The `hasReply: false` send loop of `fetch` (server.ts lines 446-462):
fire-and-forget event envelopes, with no correlation id, to the targets that
resolve; unknown ids are silently skipped. -/
def fetchNoReplyLoop (event : String) (body : JValue) (st : ServerState) :
    List String → List Output
  | [] => []
  | cid :: rest =>
    match lookupK st.clients cid with
    | some _ =>
      Output.sent cid
          { type := MType.event, event := event, fetchId := "", body := body, header := [] }
        :: fetchNoReplyLoop event body st rest
    | none => fetchNoReplyLoop event body st rest

/-- The `hasReply: true` per-target loop of `fetch` (server.ts lines
467-531): an unknown id contributes an immediately-rejected outcome; a
known id consumes a fresh fetch id, registers a pending request and sends
the event envelope carrying the correlation id. -/
def fetchLoop (event : String) (body : JValue) :
    ServerState → List String → List String →
    ServerState × List Output × List TargetOutcome
  | st, [], _ => (st, [], [])
  | st, cid :: rest, fresh =>
    match lookupK st.clients cid with
    | none =>
      let r := fetchLoop event body st rest fresh
      (r.1, r.2.1, TargetOutcome.notFound cid :: r.2.2)
    | some _ =>
      let fid := fresh.headD "fid0"
      let st1 := registerPending st fid cid
      let r := fetchLoop event body st1 rest fresh.tail
      (r.1,
       Output.sent cid
           { type := MType.event, event := event, fetchId := fid, body := body, header := [] }
         :: r.2.1,
       TargetOutcome.pending fid :: r.2.2)

/-- `fetch` (server.ts lines 430-540), up to the point where the per-target
promises exist.  `fresh` supplies the values produced by `generateFetchId`.
For `hasReply: false` the call sends and returns with no outcome list
(`none`); for `hasReply: true` it returns the ordered per-target outcomes. -/
def fetch (serverCfg : FetchConfigO) (st : ServerState) (ids : List String)
    (event : String) (data : JValue) (config : Option FetchConfigO)
    (fresh : List String) : ServerState × List Output × Option (List TargetOutcome) :=
  let fc := mergeConfig serverCfg config
  let code := fc.code.getD 200
  let msg := fc.msg.getD "success"
  let body := JValue.msgObj code data msg
  if fc.hasReply.getD true = false then
    (st, fetchNoReplyLoop event body st ids, none)
  else
    let r := fetchLoop event body st ids fresh
    (r.1, r.2.1, some r.2.2)

/-- How a registered pending request eventually settles (by a matching
reply, the deadline, or disconnect cancellation): an assignment from fetch
ids to final results. -/
abbrev Settlement := String → Except String JValue

/-- The eventual result of one per-target promise: an unknown target is the
already-rejected `Client <id> not found` promise; a registered request
settles according to `σ`. -/
def eventualOutcome (σ : Settlement) : TargetOutcome → Except String JValue
  | TargetOutcome.notFound cid => Except.error ("Client " ++ cid ++ " not found")
  | TargetOutcome.pending fid => σ fid

/-- `Promise.all`: fulfils with the ordered array of values iff every
element fulfils; rejects as soon as any element rejects, with that
rejection's reason.  (When several elements reject, `Promise.all` takes the
temporally first; this model takes the first in list order, which agrees
whenever at most one element rejects — the only case the theorems below
evaluate.) -/
def promiseAll : List (Except String JValue) → Except String (List JValue)
  | [] => Except.ok []
  | Except.ok v :: rest =>
    match promiseAll rest with
    | Except.ok vs => Except.ok (v :: vs)
    | Except.error e => Except.error e
  | Except.error e :: _ => Except.error e

deriving instance DecidableEq for Except

/-- The overall result of a `fetch` with `hasReply` (server.ts lines
533-539): the single promise itself for one target, `Promise.all` of the
per-target promises otherwise. -/
inductive FetchOutcome where
  | single (r : Except String JValue)
  | multi (r : Except String (List JValue))
deriving DecidableEq, Repr

/-- Combine the per-target outcomes into the overall call result once every
pending request has settled per `σ`. -/
def fetchOverall (tos : List TargetOutcome) (σ : Settlement) : FetchOutcome :=
  match tos.map (eventualOutcome σ) with
  | [r] => FetchOutcome.single r
  | rs => FetchOutcome.multi (promiseAll rs)

/-- Whether an `Except` result is a fulfilment. -/
def isOkB {ε α : Type} : Except ε α → Bool
  | Except.ok _ => true
  | Except.error _ => false

/-! ### Client reconnection state machine (client-browser.ts) -/

/-- The `status` field of the client config:
`'connecting' | 'connected' | 'disconnected'`. -/
inductive ConnStatus where
  | connecting
  | connected
  | disconnected
deriving DecidableEq, Repr

/-- The client state relevant to reconnection: the `status` field, the
`shouldReconnect` flag, the `reconnectCount` counter and whether a retry
timer is currently scheduled (`reconnectTimer !== null`). -/
structure ClientState where
  status : ConnStatus
  shouldReconnect : Bool
  reconnectCount : Nat
  timerScheduled : Bool
deriving DecidableEq, Repr

/-- `handleReconnect` (client-browser.ts lines 278-300): give up silently if
reconnection is disabled; if the retry counter has reached the configured
maximum, clear the flag and schedule nothing (only a log, no exception);
otherwise increment the counter and schedule a retry timer. -/
def handleReconnect (maxReconnectCount : Nat) (st : ClientState) : ClientState :=
  if st.shouldReconnect = false then st
  else if maxReconnectCount ≤ st.reconnectCount then { st with shouldReconnect := false }
  else { st with reconnectCount := st.reconnectCount + 1, timerScheduled := true }

/-- The retry delay (client-browser.ts line 292):
`min(1000 * 2^(count-1), 30000)`. -/
def reconnectDelay (count : Nat) : Nat :=
  min (1000 * 2 ^ (count - 1)) 30000

/-- An immediately failing connection attempt: the socket's close/error
listener fires (status becomes `disconnected`, lines 257-272) and then
`handleReconnect` runs. -/
def failAttempt (maxReconnectCount : Nat) (st : ClientState) : ClientState :=
  handleReconnect maxReconnectCount { st with status := ConnStatus.disconnected }

/-- The retry timer firing (client-browser.ts lines 294-299): the timer is
consumed; if reconnection is still wanted and the state is `disconnected`,
enter `connecting` and attempt a new connection. -/
def fireRetryTimer (st : ClientState) : ClientState :=
  if st.shouldReconnect = true ∧ st.status = ConnStatus.disconnected then
    { st with status := ConnStatus.connecting, timerScheduled := false }
  else { st with timerScheduled := false }

/-- The state set up by `connect(url)` (client-browser.ts lines 339-349):
`connecting`, reconnection enabled, counter reset. -/
def connectStart : ClientState :=
  { status := ConnStatus.connecting, shouldReconnect := true, reconnectCount := 0,
    timerScheduled := false }

/-- The run in which the initial connection attempt and every scheduled
reconnection attempt fail immediately: `failRun max n` is the state after
the initial failure followed by `n` failed reconnection attempts (each
consuming the pending retry timer). -/
def failRun (maxReconnectCount : Nat) : Nat → ClientState
  | 0 => failAttempt maxReconnectCount connectStart
  | n + 1 =>
    let st := failRun maxReconnectCount n
    if st.timerScheduled then failAttempt maxReconnectCount (fireRetryTimer st) else st

/-- Whether an output is a wire send (as opposed to a promise settlement or
a handler side effect). -/
def isSentB : Output → Bool
  | Output.sent _ _ => true
  | _ => false

/-- The wire sends contained in a trace, in order. -/
def sentOutputs (tr : List Output) : List Output :=
  tr.filter isSentB

theorem memS_iff (l : List String) (x : String) : memS l x = true ↔ x ∈ l := by
  induction l with
  | nil => simp [memS]
  | cons y ys ih =>
    simp only [memS, List.mem_cons]
    by_cases h : y = x
    · simp [h]
    · have h2 : ¬x = y := fun hh => h hh.symm
      simp [h, h2, ih]

theorem memS_eq_false_iff (l : List String) (x : String) : memS l x = false ↔ x ∉ l := by
  rw [← memS_iff]
  cases h : memS l x <;> simp [h]

theorem nodupS_iff (l : List String) : nodupS l = true ↔ l.Nodup := by
  induction l with
  | nil => simp [nodupS]
  | cons y ys ih =>
    simp only [nodupS, Bool.and_eq_true, Bool.not_eq_true', List.nodup_cons]
    rw [memS_eq_false_iff, ih]

theorem lookupK_mapSet_self {β : Type} (l : List (String × β)) (k : String) (v : β) :
    lookupK (mapSet l k v) k = some v := by
  induction l with
  | nil => simp [mapSet, lookupK]
  | cons e rest ih =>
    by_cases he : e.1 = k
    · simp [mapSet, he, lookupK]
    · simp [mapSet, he, lookupK, ih]

theorem lookupK_mapSet_ne {β : Type} (l : List (String × β)) (k k' : String) (v : β)
    (h : k' ≠ k) : lookupK (mapSet l k v) k' = lookupK l k' := by
  have hkk : ¬k = k' := fun hh => h hh.symm
  induction l with
  | nil => simp [mapSet, lookupK, hkk]
  | cons e rest ih =>
    by_cases he : e.1 = k
    · have hek' : ¬e.1 = k' := by rw [he]; exact hkk
      simp only [mapSet, if_pos he, lookupK, if_neg hkk, if_neg hek']
    · simp only [mapSet, if_neg he, lookupK]
      by_cases he' : e.1 = k'
      · simp only [if_pos he']
      · simp only [if_neg he', ih]

theorem lookupK_mapDel_self {β : Type} (l : List (String × β)) (k : String) :
    lookupK (mapDel l k) k = none := by
  induction l with
  | nil => simp [mapDel, lookupK]
  | cons e rest ih =>
    by_cases he : e.1 = k
    · simp [mapDel, he, ih]
    · simp [mapDel, lookupK, he, ih]

theorem lookupK_mapDel_ne {β : Type} (l : List (String × β)) (k k' : String)
    (h : k' ≠ k) : lookupK (mapDel l k) k' = lookupK l k' := by
  induction l with
  | nil => simp [mapDel]
  | cons e rest ih =>
    by_cases he : e.1 = k
    · have hek' : ¬e.1 = k' := by rw [he]; exact fun hh => h hh.symm
      simp only [mapDel, if_pos he, lookupK, if_neg hek', ih]
    · simp only [mapDel, if_neg he, lookupK]
      by_cases he' : e.1 = k'
      · simp only [if_pos he']
      · simp only [if_neg he', ih]

theorem mapDel_of_lookup_none {β : Type} (l : List (String × β)) (k : String)
    (h : lookupK l k = none) : mapDel l k = l := by
  induction l with
  | nil => simp [mapDel]
  | cons e rest ih =>
    by_cases he : e.1 = k
    · simp [lookupK, he] at h
    · simp only [lookupK, he, if_false] at h
      simp [mapDel, he, ih h]

theorem lookupK_append_none {β : Type} (l₁ l₂ : List (String × β)) (k : String)
    (h : lookupK l₁ k = none) : lookupK (l₁ ++ l₂) k = lookupK l₂ k := by
  induction l₁ with
  | nil => simp
  | cons e rest ih =>
    by_cases he : e.1 = k
    · simp [lookupK, he] at h
    · simp only [lookupK, he, if_false] at h
      simp [lookupK, he, ih h]

theorem lookupK_append_some {β : Type} (l₁ l₂ : List (String × β)) (k : String) (v : β)
    (h : lookupK l₁ k = some v) : lookupK (l₁ ++ l₂) k = some v := by
  induction l₁ with
  | nil => simp [lookupK] at h
  | cons e rest ih =>
    by_cases he : e.1 = k
    · simp only [lookupK, he, if_true] at h
      simp [lookupK, he, h]
    · simp only [lookupK, he, if_false] at h
      simp [lookupK, he, ih h]

theorem lookupK_isSome_of_mem {β : Type} (l : List (String × β)) (k : String) (v : β)
    (h : (k, v) ∈ l) : (lookupK l k).isSome = true := by
  induction l with
  | nil => simp at h
  | cons e rest ih =>
    rcases List.mem_cons.mp h with h1 | h2
    · simp [lookupK, ← h1]
    · by_cases he : e.1 = k <;> simp [lookupK, he, ih h2]

theorem lookupK_mem {β : Type} (l : List (String × β)) (k : String) (v : β)
    (h : lookupK l k = some v) : (k, v) ∈ l := by
  induction l with
  | nil => simp [lookupK] at h
  | cons e rest ih =>
    by_cases he : e.1 = k
    · simp only [lookupK, he, if_true, Option.some.injEq] at h
      exact List.mem_cons.mpr (Or.inl (by rw [← he, ← h]))
    · simp only [lookupK, he, if_false] at h
      exact List.mem_cons.mpr (Or.inr (ih h))

theorem mem_lookupK_of_nodup {β : Type} (l : List (String × β)) (k : String) (v : β)
    (hn : keysNodupB l = true) (h : (k, v) ∈ l) : lookupK l k = some v := by
  induction l with
  | nil => simp at h
  | cons e rest ih =>
    simp only [keysNodupB, List.map_cons, nodupS, Bool.and_eq_true, Bool.not_eq_true'] at hn
    rcases List.mem_cons.mp h with h1 | h2
    · rw [← h1]
      simp [lookupK]
    · by_cases he : e.1 = k
      · exfalso
        have hmem : k ∈ rest.map Prod.fst := List.mem_map.mpr ⟨(k, v), h2, rfl⟩
        have htrue : memS (rest.map Prod.fst) e.1 = true := by
          rw [he]
          exact (memS_iff _ _).mpr hmem
        rw [hn.1] at htrue
        exact Bool.noConfusion htrue
      · have := ih (by simpa [keysNodupB] using hn.2) h2
        simp [lookupK, he, this]

theorem mem_of_mem_mapDel {β : Type} (l : List (String × β)) (k : String) (e : String × β)
    (h : e ∈ mapDel l k) : e ∈ l := by
  induction l with
  | nil => simp [mapDel] at h
  | cons e' rest ih =>
    by_cases he : e'.1 = k
    · simp only [mapDel, he, if_true] at h
      exact List.mem_cons.mpr (Or.inr (ih h))
    · simp only [mapDel, he, if_false] at h
      rcases List.mem_cons.mp h with h1 | h2
      · exact List.mem_cons.mpr (Or.inl h1)
      · exact List.mem_cons.mpr (Or.inr (ih h2))

theorem memS_append (l₁ l₂ : List String) (x : String) :
    memS (l₁ ++ l₂) x = (memS l₁ x || memS l₂ x) := by
  induction l₁ with
  | nil => simp [memS]
  | cons y ys ih =>
    by_cases h : y = x <;> simp [memS, h, ih]

theorem memS_setAdd (l : List String) (x y : String) :
    memS (setAdd l x) y = (memS l y || decide (y = x)) := by
  unfold setAdd
  by_cases h : memS l x = true
  · simp only [h, if_true]
    by_cases hxy : y = x
    · rw [hxy]
      simp [h]
    · simp [hxy]
  · simp only [Bool.not_eq_true] at h
    rw [if_neg (by simp [h])]
    rw [memS_append]
    by_cases hxy : y = x
    · simp [memS, hxy]
    · have hxy2 : ¬x = y := fun hh => hxy hh.symm
      simp [memS, hxy, hxy2]

theorem memS_setDel (l : List String) (x y : String) :
    memS (setDel l x) y = (memS l y && !decide (y = x)) := by
  induction l with
  | nil => simp [setDel, memS]
  | cons z zs ih =>
    by_cases hz : z = x
    · simp only [setDel, if_pos hz, ih, memS]
      by_cases hyx : y = x
      · simp [hyx]
      · have hzy : ¬z = y := fun hh => hyx (hh ▸ hz)
        simp [hyx, hzy]
    · simp only [setDel, if_neg hz, memS]
      by_cases hzy : z = y
      · have : ¬y = x := by rw [← hzy]; exact hz
        simp [hzy, this]
      · simp [hzy, ih]

theorem nodupS_append_singleton (l : List String) (x : String)
    (h : memS l x = false) : nodupS (l ++ [x]) = nodupS l := by
  induction l with
  | nil => simp [nodupS, memS]
  | cons y ys ih =>
    simp only [memS] at h
    by_cases hy : y = x
    · simp [hy] at h
    · simp only [if_neg hy] at h
      have hxy : memS [x] y = false := by
        have : ¬x = y := fun hh => hy hh.symm
        simp [memS, this]
      simp only [List.cons_append, nodupS, List.append_eq, memS_append, hxy, ih h,
        Bool.or_false]

theorem nodupS_setAdd (l : List String) (x : String)
    (h : nodupS l = true) : nodupS (setAdd l x) = true := by
  unfold setAdd
  by_cases hm : memS l x = true
  · simp [hm, h]
  · simp only [Bool.not_eq_true] at hm
    simp [hm, nodupS_append_singleton l x hm, h]

theorem nodupS_setDel (l : List String) (x : String)
    (h : nodupS l = true) : nodupS (setDel l x) = true := by
  induction l with
  | nil => simp [setDel, nodupS]
  | cons y ys ih =>
    simp only [nodupS, Bool.and_eq_true, Bool.not_eq_true'] at h
    by_cases hy : y = x
    · simp [setDel, hy, ih h.2]
    · simp only [setDel, if_neg hy, nodupS, Bool.and_eq_true, Bool.not_eq_true']
      refine ⟨?_, ih h.2⟩
      rw [memS_setDel, h.1]
      simp

theorem memS_eraseFirst_of_nodup (l : List String) (x y : String)
    (h : nodupS l = true) : memS (eraseFirst l x) y = (memS l y && !decide (y = x)) := by
  induction l with
  | nil => simp [eraseFirst, memS]
  | cons z zs ih =>
    simp only [nodupS, Bool.and_eq_true, Bool.not_eq_true'] at h
    by_cases hz : z = x
    · simp only [eraseFirst, if_pos hz, memS]
      by_cases hyx : y = x
      · have hx : memS zs x = false := by rw [← hz]; exact h.1
        simp [hx, hyx]
      · have hzy : ¬z = y := fun hh => hyx (hh ▸ hz)
        simp [hzy, hyx]
    · simp only [eraseFirst, if_neg hz, memS]
      by_cases hzy : z = y
      · have : ¬y = x := by rw [← hzy]; exact hz
        simp [hzy, this]
      · simp [hzy, ih h.2]

theorem nodupS_eraseFirst (l : List String) (x : String)
    (h : nodupS l = true) : nodupS (eraseFirst l x) = true := by
  induction l with
  | nil => simp [eraseFirst, nodupS]
  | cons z zs ih =>
    simp only [nodupS, Bool.and_eq_true, Bool.not_eq_true'] at h
    by_cases hz : z = x
    · simp [eraseFirst, hz, h.2]
    · simp only [eraseFirst, if_neg hz, nodupS, Bool.and_eq_true, Bool.not_eq_true']
      refine ⟨?_, ih h.2⟩
      rw [memS_eraseFirst_of_nodup zs x z h.2, h.1]
      simp

theorem eraseFirst_append_self (l : List String) (x : String)
    (h : memS l x = false) : eraseFirst (l ++ [x]) x = l := by
  induction l with
  | nil => simp [eraseFirst]
  | cons y ys ih =>
    simp only [memS] at h
    by_cases hy : y = x
    · simp [hy] at h
    · simp only [if_neg hy] at h
      simp [eraseFirst, hy, ih h]

theorem mapSet_eq_self {β : Type} (l : List (String × β)) (k : String) (v : β)
    (h : lookupK l k = some v) : mapSet l k v = l := by
  induction l with
  | nil => simp [lookupK] at h
  | cons e rest ih =>
    by_cases he : e.1 = k
    · simp only [lookupK, if_pos he, Option.some.injEq] at h
      simp only [mapSet, if_pos he]
      rw [← he, ← h]
    · simp only [lookupK, if_neg he] at h
      simp [mapSet, he, ih h]

theorem mapSet_mapSet {β : Type} (l : List (String × β)) (k : String) (v w : β) :
    mapSet (mapSet l k v) k w = mapSet l k w := by
  induction l with
  | nil => simp [mapSet]
  | cons e rest ih =>
    by_cases he : e.1 = k
    · simp [mapSet, he]
    · simp [mapSet, he, ih]

theorem keys_mapSet {β : Type} (l : List (String × β)) (k : String) (v : β) :
    (mapSet l k v).map Prod.fst
      = if (lookupK l k).isSome then l.map Prod.fst else l.map Prod.fst ++ [k] := by
  induction l with
  | nil => simp [mapSet, lookupK]
  | cons e rest ih =>
    by_cases he : e.1 = k
    · simp [mapSet, he, lookupK]
    · simp only [mapSet, if_neg he, lookupK, List.map_cons, ih]
      by_cases hs : (lookupK rest k).isSome <;> simp [he, hs]

theorem keys_mapDel {β : Type} (l : List (String × β)) (k : String) :
    (mapDel l k).map Prod.fst = setDel (l.map Prod.fst) k := by
  induction l with
  | nil => simp [mapDel, setDel]
  | cons e rest ih =>
    by_cases he : e.1 = k <;> simp [mapDel, setDel, he, ih]

/-! ### Claim C10 -/

/-- C10: for every group name and every id that is not a currently connected
client, `removeGroup` throws `Client <id> not found` before performing any
mutation (the guard is the first statement of the method, so the error
escapes with the group-to-members map and every peer's group list
untouched) — leave is not a silent no-op for peers that are no longer
live. -/
theorem removeGroup_unknown_client_throws (group id : String) (st : ServerState)
    (h : lookupK st.clients id = none) :
    removeGroup group id st = Except.error ("Client " ++ id ++ " not found") := by
  unfold removeGroup
  simp [h]

theorem removeGroup_unknown_client_throws_witness :
    removeGroup "g" "c1"
        { clients := [("c2", { id := "c2", groups := ["g"] })], pendingFetches := [],
          clientPendingFetches := [], groups := [("g", ["c2"])] }
      = Except.error "Client c1 not found" :=
  removeGroup_unknown_client_throws "g" "c1" _ (by decide)

/-! ### Claim C6 -/

/-- C6: an inbound raw message whose byte size exceeds `maxMessageSize` is
answered with an immediate code-413 reply and `handleMessage` returns with
the state unchanged; the result does not depend on the parse of the
message (the size check precedes `JSON.parse`), so an oversized payload
never reaches the middleware/dispatch pipeline and never resolves a
pending request. -/
theorem oversized_message_always_413 (maxMessageSize : Nat) (mws : List Script)
    (eventHandlers : List (String × List Script)) (st : ServerState) (user : User)
    (raw : RawMsg) (h : maxMessageSize < raw.size) :
    handleMessage maxMessageSize mws eventHandlers st user raw
      = (st, [Output.sent user.id (protocolErrorReply 413
          ("Message too large. Maximum size is " ++ toString maxMessageSize ++ " bytes"))]) ∧
    ∀ p : Option InternalMessage,
      handleMessage maxMessageSize mws eventHandlers st user { size := raw.size, parsed := p }
        = handleMessage maxMessageSize mws eventHandlers st user raw := by
  constructor
  · unfold handleMessage
    simp [h]
  · intro p
    unfold handleMessage
    simp [h]

theorem oversized_message_always_413_witness :
    handleMessage 10 [] []
        { clients := [], pendingFetches := [("f1", { clientId := "c" })],
          clientPendingFetches := [("c", ["f1"])], groups := [] }
        { id := "c", groups := [] } { size := 11, parsed := none }
      = ({ clients := [], pendingFetches := [("f1", { clientId := "c" })],
           clientPendingFetches := [("c", ["f1"])], groups := [] },
         [Output.sent "c" (protocolErrorReply 413
            "Message too large. Maximum size is 10 bytes")]) :=
  (oversized_message_always_413 10 [] [] _ _ _ (by decide)).1

/-! ### Claim C9 -/

/-- C9 (code bug): the claim and the README document the reply capability as
`reply(data, code?, msg?)` with `code`/`msg` defaulting from the active
`FetchConfig`, but the implementation declares `reply: (data: any) => void`
and sends `{ type: 'reply', fetchId, body: data }` with the data argument
verbatim (server.ts lines 24-31 and 247-255).  Evaluating the pipeline at
the README's own failing input — a middleware invoking the reply capability
with `null` (any further arguments are ignored by the implementation) —
shows the sent body is exactly `null`, not a Message carrying code 401 nor
one carrying the defaulted code 200 / msg success. -/
theorem reply_sends_data_verbatim :
    runEventPipeline "d" [[HAction.callReply JValue.null]] [] "ev" "f1"
      = [Output.sent "d" (mkReplyEnvelope "f1" JValue.null)] ∧
    mkReplyEnvelope "f1" JValue.null
      ≠ mkReplyEnvelope "f1" (JValue.msgObj 401 JValue.null "Unauthorized") ∧
    mkReplyEnvelope "f1" JValue.null
      ≠ mkReplyEnvelope "f1" (JValue.msgObj 200 JValue.null "success") := by
  refine ⟨by decide, by decide, by decide⟩

/-! ### Claim C3 -/

/-- C3: a registered pending request is settled by at most one of
resolution-by-reply, deadline expiry and disconnect cancellation, and any
second attempt is a no-op.  Conjuncts: a reply for an unknown correlation id
leaves the state unchanged and emits nothing (and never raises — the
embedding is a total function); the same for the deadline callback; both
settlement paths remove the id from the pending map; hence a second
resolution or expiry after a resolution, or a resolution after an expiry,
is a no-op; and at the `handleMessage` entry point a reply envelope whose
fetchId is unknown changes nothing. -/
theorem pending_request_settles_once (st : ServerState) (fid : String)
    (body body2 : JValue) (maxWait : Nat) (maxMessageSize : Nat) (mws : List Script)
    (eventHandlers : List (String × List Script)) (user : User) (ev : String)
    (hdr : List (String × String)) (sz : Nat) :
    (lookupK st.pendingFetches fid = none → resolveReply st fid body = (st, [])) ∧
    (lookupK st.pendingFetches fid = none → expireStep st fid maxWait = (st, [])) ∧
    lookupK (resolveReply st fid body).1.pendingFetches fid = none ∧
    lookupK (expireStep st fid maxWait).1.pendingFetches fid = none ∧
    resolveReply (resolveReply st fid body).1 fid body2 = ((resolveReply st fid body).1, []) ∧
    expireStep (resolveReply st fid body).1 fid maxWait = ((resolveReply st fid body).1, []) ∧
    resolveReply (expireStep st fid maxWait).1 fid body2 = ((expireStep st fid maxWait).1, []) ∧
    (lookupK st.pendingFetches fid = none → fid ≠ "" → sz ≤ maxMessageSize →
      handleMessage maxMessageSize mws eventHandlers st user
          { size := sz,
            parsed := some { type := MType.reply, event := ev, fetchId := fid, body := body,
                             header := hdr } }
        = (st, [])) := by
  have hre : ∀ s : ServerState, lookupK s.pendingFetches fid = none →
      resolveReply s fid body2 = (s, []) := by
    intro s hs
    unfold resolveReply
    simp [hs]
  have hex : ∀ s : ServerState, lookupK s.pendingFetches fid = none →
      expireStep s fid maxWait = (s, []) := by
    intro s hs
    unfold expireStep
    simp [hs, mapDel_of_lookup_none _ _ hs]
  have hgone1 : lookupK (resolveReply st fid body).1.pendingFetches fid = none := by
    unfold resolveReply
    cases h : lookupK st.pendingFetches fid with
    | none => simp [h]
    | some pf => simp [lookupK_mapDel_self]
  have hgone2 : lookupK (expireStep st fid maxWait).1.pendingFetches fid = none := by
    unfold expireStep
    cases h : lookupK st.pendingFetches fid with
    | none => simp [lookupK_mapDel_self]
    | some pf => simp [lookupK_mapDel_self]
  refine ⟨?_, hex st, hgone1, hgone2, hre _ hgone1, hex _ hgone1, hre _ hgone2, ?_⟩
  · intro hs
    unfold resolveReply
    simp [hs]
  · intro hs hfid hsz
    unfold handleMessage
    rw [if_neg (Nat.not_lt.mpr hsz)]
    simp only [if_pos (And.intro rfl hfid)]
    unfold resolveReply
    simp [hs]

theorem pending_request_settles_once_witness :
    resolveReply
        { clients := [], pendingFetches := [], clientPendingFetches := [], groups := [] }
        "f1" JValue.null
      = ({ clients := [], pendingFetches := [], clientPendingFetches := [], groups := [] },
         []) :=
  (pending_request_settles_once _ "f1" JValue.null JValue.null 10000 1048576 [] []
      { id := "c", groups := [] } "" [] 0).1 (by decide)

/-! ### Claim C7 -/

theorem failRun_of_lt (maxR k : Nat) (h : k < maxR) :
    failRun maxR k
      = { status := ConnStatus.disconnected, shouldReconnect := true,
          reconnectCount := k + 1, timerScheduled := true } := by
  induction k with
  | zero =>
    unfold failRun failAttempt handleReconnect connectStart
    simp [Nat.not_le.mpr h]
  | succ n ih =>
    have hn : n < maxR := Nat.lt_of_succ_lt h
    show (if (failRun maxR n).timerScheduled then
        failAttempt maxR (fireRetryTimer (failRun maxR n)) else failRun maxR n) = _
    rw [ih hn]
    simp [fireRetryTimer, failAttempt, handleReconnect, Nat.not_le.mpr h]

theorem failRun_at_max (maxR : Nat) :
    failRun maxR maxR
      = { status := ConnStatus.disconnected, shouldReconnect := false,
          reconnectCount := maxR, timerScheduled := false } := by
  cases maxR with
  | zero =>
    unfold failRun failAttempt handleReconnect connectStart
    simp
  | succ m =>
    show (if (failRun (m + 1) m).timerScheduled then
        failAttempt (m + 1) (fireRetryTimer (failRun (m + 1) m)) else failRun (m + 1) m) = _
    rw [failRun_of_lt (m + 1) m (Nat.lt_succ_self m)]
    simp [fireRetryTimer, failAttempt, handleReconnect]

theorem failRun_stable (maxR k : Nat) :
    failRun maxR (maxR + k) = failRun maxR maxR := by
  induction k with
  | zero => rfl
  | succ n ih =>
    show (if (failRun maxR (maxR + n)).timerScheduled then
        failAttempt maxR (fireRetryTimer (failRun maxR (maxR + n)))
      else failRun maxR (maxR + n)) = failRun maxR maxR
    rw [ih, failRun_at_max]
    simp

/-- C7: in the run in which the initial connection attempt and every
scheduled reconnection attempt fail immediately, the first N calls to
`handleReconnect` (N = `maxReconnectCount`) each schedule a retry timer, so
exactly N reconnection attempts are made; after the N-th consecutive
reconnection failure (`failRun maxReconnectCount maxReconnectCount`) the
counter has reached the maximum, no further retry timer is scheduled, the
"should reconnect" flag is cleared, and the state is and remains
`Disconnected` for every later step. -/
theorem reconnect_stops_after_max_failures (maxReconnectCount : Nat) :
    failRun maxReconnectCount maxReconnectCount
      = { status := ConnStatus.disconnected, shouldReconnect := false,
          reconnectCount := maxReconnectCount, timerScheduled := false } ∧
    (∀ k : Nat, failRun maxReconnectCount (maxReconnectCount + k)
      = failRun maxReconnectCount maxReconnectCount) ∧
    (∀ k : Nat, k < maxReconnectCount →
      failRun maxReconnectCount k
        = { status := ConnStatus.disconnected, shouldReconnect := true,
            reconnectCount := k + 1, timerScheduled := true }) :=
  ⟨failRun_at_max maxReconnectCount, failRun_stable maxReconnectCount,
   fun k hk => failRun_of_lt maxReconnectCount k hk⟩

theorem reconnect_stops_after_max_failures_witness :
    failRun 5 5
      = { status := ConnStatus.disconnected, shouldReconnect := false,
          reconnectCount := 5, timerScheduled := false } ∧
    (2 < 5 ∧ failRun 5 2
      = { status := ConnStatus.disconnected, shouldReconnect := true,
          reconnectCount := 3, timerScheduled := true }) :=
  ⟨(reconnect_stops_after_max_failures 5).1,
   by decide, (reconnect_stops_after_max_failures 5).2.2 2 (by decide)⟩

/-! ### Pipeline lemmas (claims C4, C5) -/

theorem sentOutputs_nil : sentOutputs [] = [] := rfl

theorem sentOutputs_cons (o : Output) (tr : List Output) :
    sentOutputs (o :: tr) = if isSentB o then o :: sentOutputs tr else sentOutputs tr := by
  simp [sentOutputs, List.filter_cons]

theorem sentOutputs_append (t1 t2 : List Output) :
    sentOutputs (t1 ++ t2) = sentOutputs t1 ++ sentOutputs t2 := by
  simp [sentOutputs, List.filter_append]

theorem runScript_flag_true (dest fid : String) (s : Script) :
    (runScript dest fid true s).1 = true := by
  induction s with
  | nil => rfl
  | cons a rest ih =>
    cases a with
    | callReply d => simpa [runScript] using ih
    | sideEffect t => simpa [runScript] using ih
    | throwErr => rfl

theorem runScript_true_no_sends (dest fid : String) (s : Script) :
    sentOutputs (runScript dest fid true s).2.1 = [] := by
  induction s with
  | nil => rfl
  | cons a rest ih =>
    cases a with
    | callReply d => simpa [runScript] using ih
    | sideEffect t => simpa [runScript, sentOutputs_cons, isSentB] using ih
    | throwErr => rfl

theorem runScript_sends_count (dest fid : String) (s : Script) (r : Bool) :
    (sentOutputs (runScript dest fid r s).2.1).length
      = if r = false ∧ (runScript dest fid r s).1 = true then 1 else 0 := by
  cases r with
  | true =>
    rw [runScript_true_no_sends, runScript_flag_true]
    simp
  | false =>
    induction s with
    | nil => simp [runScript, sentOutputs]
    | cons a rest ih =>
      cases a with
      | callReply d =>
        simp [runScript, sentOutputs_cons, isSentB, runScript_flag_true,
          runScript_true_no_sends]
      | sideEffect t =>
        simpa [runScript, sentOutputs_cons, isSentB] using ih
      | throwErr => simp [runScript, sentOutputs]

theorem runChain_true (errMsg dest fid : String) (l : List Script) :
    runChain errMsg dest fid true l = (true, [], false) := by
  cases l <;> simp [runChain]

theorem runChain_sends_count (errMsg dest fid : String) (l : List Script) (r : Bool) :
    (sentOutputs (runChain errMsg dest fid r l).2.1).length
      = if r = false ∧ (runChain errMsg dest fid r l).1 = true then 1 else 0 := by
  cases r with
  | true =>
    rw [runChain_true]
    simp [sentOutputs_nil]
  | false =>
    induction l with
    | nil => simp [runChain, sentOutputs_nil]
    | cons s rest ih =>
      have hs0 := runScript_sends_count dest fid s false
      cases herr : (runScript dest fid false s).2.2 with
      | true =>
        cases hflag : (runScript dest fid false s).1 with
        | true =>
          rw [hflag] at hs0
          simp only [runChain, herr, hflag] at *
          simp [hs0]
        | false =>
          rw [hflag] at hs0
          simp only [runChain, herr, hflag] at *
          simp [sentOutputs_append, sentOutputs_cons, isSentB, sentOutputs_nil, hs0]
      | false =>
        cases hflag : (runScript dest fid false s).1 with
        | true =>
          rw [hflag] at hs0
          simp only [runChain, herr, hflag] at *
          simp [sentOutputs_append, sentOutputs_nil, hs0, runChain_true]
        | false =>
          rw [hflag] at hs0
          simp only [runChain, herr, hflag] at *
          simp [sentOutputs_append, hs0, ih]

/-! ### Claim C4 -/

/-- C4: at most one reply envelope is ever sent for one inbound event
envelope; a chain resumed after a reply runs no further middleware or
handler body (so no later side effects and no later sends); a reply-capability
invocation made while the `replied` flag is already set sends nothing; and
when the middleware chain ends with the flag set (some middleware replied)
the whole dispatch output is exactly the middleware trace — no event handler
runs at all. -/
theorem at_most_one_reply_per_event (dest fid event : String) (mws hs : List Script) :
    (sentOutputs (runEventPipeline dest mws hs event fid)).length ≤ 1 ∧
    (∀ eMsg : String, ∀ l : List Script, runChain eMsg dest fid true l = (true, [], false)) ∧
    (∀ s : Script, sentOutputs (runScript dest fid true s).2.1 = []) ∧
    (∀ tr : List Output, runChain "Middleware error" dest fid false mws = (true, tr, false) →
      runEventPipeline dest mws hs event fid = tr) := by
  refine ⟨?_, fun eMsg l => runChain_true eMsg dest fid l,
    fun s => runScript_true_no_sends dest fid s, ?_⟩
  · have hm := runChain_sends_count "Middleware error" dest fid mws false
    have hh := runChain_sends_count "Handler error" dest fid hs false
    have hm1 : (sentOutputs (runChain "Middleware error" dest fid false mws).2.1).length ≤ 1 := by
      rw [hm]
      split_ifs <;> omega
    have hh1 : (sentOutputs (runChain "Handler error" dest fid false hs).2.1).length ≤ 1 := by
      rw [hh]
      split_ifs <;> omega
    have hm0 : (runChain "Middleware error" dest fid false mws).1 = false →
        (sentOutputs (runChain "Middleware error" dest fid false mws).2.1).length = 0 := by
      intro hf
      rw [hm, hf]
      simp
    have hh0 : (runChain "Handler error" dest fid false hs).1 = false →
        (sentOutputs (runChain "Handler error" dest fid false hs).2.1).length = 0 := by
      intro hf
      rw [hh, hf]
      simp
    unfold runEventPipeline
    split_ifs with hab hflag hhab hcond
    · exact hm1
    · exact hm1
    · rw [sentOutputs_append, List.length_append, hm0 (by simpa using hflag)]
      omega
    · rw [sentOutputs_append, sentOutputs_append, List.length_append, List.length_append,
        hm0 (by simpa using hflag), hh0 hcond.1]
      simp [sentOutputs_cons, isSentB, sentOutputs_nil]
    · rw [sentOutputs_append, List.length_append, hm0 (by simpa using hflag)]
      omega
  · intro tr h
    unfold runEventPipeline
    rw [h]
    simp

theorem at_most_one_reply_per_event_witness :
    runEventPipeline "d"
        [[HAction.callReply (JValue.str "first"), HAction.sideEffect 7],
         [HAction.callReply (JValue.str "second")]]
        [[HAction.sideEffect 9]] "ev" "f1"
      = [Output.sent "d" (mkReplyEnvelope "f1" (JValue.str "first")), Output.effect 7] :=
  (at_most_one_reply_per_event "d" "f1" "ev" _ _).2.2.2 _ (by decide)

/-! ### Claim C5 -/

/-- C5: when the middleware chain completes with no reply sent and no abort,
and the handler scripts registered for the event likewise complete with no
reply and no abort, the dispatch sends exactly one code-404 reply naming the
unmatched event if the envelope carried a (non-empty) correlation id, and
sends nothing at all if it did not.  The final conjunct ties the pipeline to
the `handleMessage` entry point: an in-size event envelope is dispatched to
exactly this pipeline with the handlers looked up under its event name. -/
theorem unmatched_event_404 (event fid : String) (mws hs : List Script)
    (st : ServerState) (user : User) (eventHandlers : List (String × List Script))
    (body : JValue) (hdr : List (String × String)) (sz maxMessageSize : Nat)
    (h1 : (runChain "Middleware error" user.id fid false mws).1 = false)
    (h2 : (runChain "Middleware error" user.id fid false mws).2.2 = false)
    (h3 : (runChain "Handler error" user.id fid false hs).1 = false)
    (h4 : (runChain "Handler error" user.id fid false hs).2.2 = false) :
    (sentOutputs (runEventPipeline user.id mws hs event fid)
      = if fid = "" then []
        else [Output.sent user.id (mkReplyEnvelope fid
            (JValue.msgObj 404 JValue.null ("No handler for event: " ++ event)))]) ∧
    (event ≠ "" → sz ≤ maxMessageSize → (lookupK eventHandlers event).getD [] = hs →
      handleMessage maxMessageSize mws eventHandlers st user
          { size := sz,
            parsed := some { type := MType.event, event := event, fetchId := fid,
                             body := body, header := hdr } }
        = (st, runEventPipeline user.id mws hs event fid)) := by
  constructor
  · have hm := runChain_sends_count "Middleware error" user.id fid mws false
    rw [h1] at hm
    simp only [and_false, if_false] at hm
    have hmnil : sentOutputs (runChain "Middleware error" user.id fid false mws).2.1 = [] :=
      List.length_eq_zero.mp hm
    have hh := runChain_sends_count "Handler error" user.id fid hs false
    rw [h3] at hh
    simp only [and_false, if_false] at hh
    have hhnil : sentOutputs (runChain "Handler error" user.id fid false hs).2.1 = [] :=
      List.length_eq_zero.mp hh
    unfold runEventPipeline
    rw [h2, h1, h4]
    simp only [if_false, Bool.false_eq_true]
    by_cases hfid : fid = ""
    · rw [if_neg (by simp [h3, hfid]), if_pos hfid]
      rw [sentOutputs_append, hmnil, hhnil]
      rfl
    · rw [if_pos ⟨h3, hfid⟩, if_neg hfid]
      rw [sentOutputs_append, sentOutputs_append, hmnil, hhnil]
      simp [sentOutputs_cons, isSentB, sentOutputs_nil]
  · intro hev hsz hhs
    unfold handleMessage
    rw [if_neg (Nat.not_lt.mpr hsz)]
    simp only [if_neg (show ¬(MType.event = MType.reply ∧ fid ≠ "") from by simp), hhs]
    simp [hev]

theorem unmatched_event_404_witness :
    sentOutputs (runEventPipeline "u1" [[HAction.sideEffect 3]] [] "ping" "f9")
      = [Output.sent "u1" (mkReplyEnvelope "f9"
          (JValue.msgObj 404 JValue.null "No handler for event: ping"))] := by
  have h := (unmatched_event_404 "ping" "f9" [[HAction.sideEffect 3]] []
    { clients := [], pendingFetches := [], clientPendingFetches := [], groups := [] }
    { id := "u1", groups := [] } [] JValue.null [] 0 0
    (by decide) (by decide) (by decide) (by decide)).1
  simpa using h

/-! ### Claim C2 -/

theorem cancelFids_lookup (pend : List (String × PendingFetch)) (fids : List String)
    (k : String) :
    lookupK (cancelFids pend fids).1 k = if memS fids k then none else lookupK pend k := by
  induction fids generalizing pend with
  | nil => simp [cancelFids, memS]
  | cons fid rest ih =>
    cases h : lookupK pend fid with
    | some pf =>
      simp only [cancelFids, h]
      rw [ih (mapDel pend fid)]
      by_cases hk : fid = k
      · subst hk
        by_cases hm : memS rest fid = true
        · simp [memS, hm]
        · simp only [Bool.not_eq_true] at hm
          simp [memS, hm, lookupK_mapDel_self]
      · have hk2 : k ≠ fid := fun hh => hk hh.symm
        rw [lookupK_mapDel_ne pend fid k hk2]
        simp [memS, hk]
    | none =>
      simp only [cancelFids, h]
      rw [ih pend]
      by_cases hk : fid = k
      · subst hk
        by_cases hm : memS rest fid = true
        · simp [memS, hm]
        · simp only [Bool.not_eq_true] at hm
          simp [memS, hm, h]
      · simp [memS, hk]

theorem cancelFids_subset (pend : List (String × PendingFetch)) (fids : List String)
    (e : String × PendingFetch) (h : e ∈ (cancelFids pend fids).1) : e ∈ pend := by
  induction fids generalizing pend with
  | nil => simpa [cancelFids] using h
  | cons fid rest ih =>
    cases hl : lookupK pend fid with
    | some pf =>
      simp only [cancelFids, hl] at h
      exact mem_of_mem_mapDel _ _ _ (ih _ h)
    | none =>
      simp only [cancelFids, hl] at h
      exact ih _ h

theorem cancelFids_rejects (pend : List (String × PendingFetch)) (fids : List String)
    (fid : String) (hmem : memS fids fid = true) (hp : (lookupK pend fid).isSome = true) :
    Output.rejected fid "Client disconnected" ∈ (cancelFids pend fids).2 := by
  induction fids generalizing pend with
  | nil => simp [memS] at hmem
  | cons f rest ih =>
    by_cases hf : f = fid
    · subst hf
      cases hl : lookupK pend f with
      | some pf => simp [cancelFids, hl]
      | none =>
        rw [hl] at hp
        simp at hp
    · simp only [memS, if_neg hf] at hmem
      cases hl : lookupK pend f with
      | some pf =>
        have hp2 : (lookupK (mapDel pend f) fid).isSome = true := by
          rw [lookupK_mapDel_ne pend f fid (fun hh => hf hh.symm)]
          exact hp
        simp only [cancelFids, hl]
        exact List.mem_cons.mpr (Or.inr (ih _ hmem hp2))
      | none =>
        simp only [cancelFids, hl]
        exact ih _ hmem hp

/-- C2: disconnecting a live peer rejects every pending request it owns with
the `Client disconnected` error in the same `cleanupClient` step, and
afterwards neither the primary fetchId map nor the per-client reverse index
contains any entry for that peer.  The hypothesis `revIndexOK` is the
reverse-index completeness invariant that `registerPending` establishes and
every removal path maintains. -/
theorem disconnect_rejects_all_owner_pending (st : ServerState) (cid : String) (u : User)
    (hlive : lookupK st.clients cid = some u) (hrev : revIndexOK st = true) :
    (∀ fid pf, (fid, pf) ∈ (cleanupClient st cid).1.pendingFetches → pf.clientId ≠ cid) ∧
    lookupK (cleanupClient st cid).1.clientPendingFetches cid = none ∧
    (∀ fid pf, (fid, pf) ∈ st.pendingFetches → pf.clientId = cid →
      Output.rejected fid "Client disconnected" ∈ (cleanupClient st cid).2) := by
  unfold revIndexOK at hrev
  have hrev2 := List.all_eq_true.mp hrev
  refine ⟨?_, ?_, ?_⟩
  · intro fid pf hmem hcid
    simp only [cleanupClient, hlive] at hmem
    have hsub : (fid, pf) ∈ st.pendingFetches := cancelFids_subset _ _ _ hmem
    have hone := hrev2 (fid, pf) hsub
    rw [hcid] at hone
    cases hl : lookupK st.clientPendingFetches cid with
    | none =>
      rw [hl] at hone
      simp at hone
    | some s =>
      rw [hl] at hone
      simp only [] at hone
      rw [hl] at hmem
      simp only [Option.getD_some] at hmem
      have hlk := cancelFids_lookup st.pendingFetches s fid
      rw [if_pos hone] at hlk
      have := lookupK_isSome_of_mem _ _ _ hmem
      rw [hlk] at this
      simp at this
  · simp only [cleanupClient, hlive]
    exact lookupK_mapDel_self _ _
  · intro fid pf hmem hcid
    simp only [cleanupClient, hlive]
    have hone := hrev2 (fid, pf) hmem
    rw [hcid] at hone
    cases hl : lookupK st.clientPendingFetches cid with
    | none =>
      rw [hl] at hone
      simp at hone
    | some s =>
      rw [hl] at hone
      simp only [] at hone
      simp only [Option.getD_some]
      exact cancelFids_rejects _ _ _ hone (lookupK_isSome_of_mem _ _ _ hmem)

theorem disconnect_rejects_all_owner_pending_witness :
    (lookupK (cleanupClient
        { clients := [("c", { id := "c", groups := [] })],
          pendingFetches := [("f1", { clientId := "c" }), ("f2", { clientId := "c" })],
          clientPendingFetches := [("c", ["f1", "f2"])], groups := [] }
        "c").1.clientPendingFetches "c" = none) ∧
    Output.rejected "f1" "Client disconnected" ∈ (cleanupClient
        { clients := [("c", { id := "c", groups := [] })],
          pendingFetches := [("f1", { clientId := "c" }), ("f2", { clientId := "c" })],
          clientPendingFetches := [("c", ["f1", "f2"])], groups := [] }
        "c").2 ∧
    Output.rejected "f2" "Client disconnected" ∈ (cleanupClient
        { clients := [("c", { id := "c", groups := [] })],
          pendingFetches := [("f1", { clientId := "c" }), ("f2", { clientId := "c" })],
          clientPendingFetches := [("c", ["f1", "f2"])], groups := [] }
        "c").2 :=
  ⟨(disconnect_rejects_all_owner_pending _ "c" { id := "c", groups := [] }
      (by decide) (by decide)).2.1,
   (disconnect_rejects_all_owner_pending _ "c" { id := "c", groups := [] }
      (by decide) (by decide)).2.2 "f1" { clientId := "c" } (by decide) rfl,
   (disconnect_rejects_all_owner_pending _ "c" { id := "c", groups := [] }
      (by decide) (by decide)).2.2 "f2" { clientId := "c" } (by decide) rfl⟩

/-! ### Claim C1 -/

theorem fetchLoop_length (event : String) (body : JValue) (st : ServerState)
    (ids fresh : List String) :
    (fetchLoop event body st ids fresh).2.2.length = ids.length := by
  induction ids generalizing st fresh with
  | nil => simp [fetchLoop]
  | cons cid rest ih =>
    cases h : lookupK st.clients cid with
    | none => simp [fetchLoop, h, ih]
    | some u => simp [fetchLoop, h, ih]

theorem fetchLoop_pend_mono (event : String) (body : JValue) (st : ServerState)
    (ids fresh : List String) (k : String)
    (h : (lookupK st.pendingFetches k).isSome = true) :
    (lookupK (fetchLoop event body st ids fresh).1.pendingFetches k).isSome = true := by
  induction ids generalizing st fresh with
  | nil => simpa [fetchLoop] using h
  | cons cid rest ih =>
    cases hl : lookupK st.clients cid with
    | none =>
      simp only [fetchLoop, hl]
      exact ih st fresh h
    | some u =>
      simp only [fetchLoop, hl]
      apply ih
      unfold registerPending
      by_cases hk : fresh.headD "fid0" = k
      · rw [← hk]
        simp [lookupK_mapSet_self]
      · rw [lookupK_mapSet_ne _ _ _ _ (fun hh => hk hh.symm)]
        exact h

theorem fetchLoop_pending_registered (event : String) (body : JValue) (st : ServerState)
    (ids fresh : List String) (fid : String)
    (h : TargetOutcome.pending fid ∈ (fetchLoop event body st ids fresh).2.2) :
    (lookupK (fetchLoop event body st ids fresh).1.pendingFetches fid).isSome = true := by
  induction ids generalizing st fresh with
  | nil => simp [fetchLoop] at h
  | cons cid rest ih =>
    cases hl : lookupK st.clients cid with
    | none =>
      simp only [fetchLoop, hl] at h ⊢
      rcases List.mem_cons.mp h with h1 | h2
      · exact absurd h1 (by simp)
      · exact ih _ _ h2
    | some u =>
      simp only [fetchLoop, hl] at h ⊢
      rcases List.mem_cons.mp h with h1 | h2
      · have hfid : fid = fresh.headD "fid0" := by
          simpa using h1
        subst hfid
        apply fetchLoop_pend_mono
        unfold registerPending
        simp [lookupK_mapSet_self]
      · exact ih _ _ h2

theorem promiseAll_isOk (rs : List (Except String JValue)) :
    isOkB (promiseAll rs) = rs.all isOkB := by
  induction rs with
  | nil => rfl
  | cons r rest ih =>
    cases r with
    | ok v =>
      cases h : promiseAll rest with
      | ok vs =>
        rw [h] at ih
        simp only [promiseAll, h, List.all_cons]
        simp only [isOkB] at ih ⊢
        rw [← ih]
        simp
      | error e =>
        rw [h] at ih
        simp only [promiseAll, h, List.all_cons]
        simp only [isOkB] at ih ⊢
        rw [← ih]
        simp
    | error e =>
      simp [promiseAll, isOkB, List.all_cons]

theorem fetchOverall_multi (tos : List TargetOutcome) (σ : Settlement)
    (h : 2 ≤ tos.length) :
    fetchOverall tos σ = FetchOutcome.multi (promiseAll (tos.map (eventualOutcome σ))) := by
  cases tos with
  | nil => simp at h
  | cons a t =>
    cases t with
    | nil => simp at h
    | cons b t2 => rfl

/-- C1 counterexample: with client `a` connected and `b` unknown,
`fetch(["a","b"], ev, data)` (with `hasReply` true) produces the ordered
outcomes `[pending f1, not-found b]`, and even when `a`'s request settles
successfully the overall call — `Promise.all` of the two promises — rejects
with `Client b not found` instead of resolving to the collection of
per-target outcomes as the claim states. -/
theorem multi_target_fetch_rejects_counterexample :
    (fetch defaultFetchConfig
        { clients := [("a", { id := "a", groups := [] })], pendingFetches := [],
          clientPendingFetches := [], groups := [] }
        ["a", "b"] "ev" JValue.null none ["f1"]).2.2
      = some [TargetOutcome.pending "f1", TargetOutcome.notFound "b"] ∧
    fetchOverall [TargetOutcome.pending "f1", TargetOutcome.notFound "b"]
        (fun _ => Except.ok (JValue.str "pong"))
      = FetchOutcome.multi (Except.error "Client b not found") := by
  constructor
  · rfl
  · rfl

/-- C1 (amended): for a `hasReply` fetch with two or more targets, the
per-target outcome list is ordered and has one entry per requested target;
the overall call is `Promise.all` of the per-target promises, so it resolves
(with the ordered collection of values) exactly when every individual
outcome succeeds and rejects as soon as any target fails; and a failing
target does not cancel the others — every registered pending request is
still present in the tracker when the call returns. -/
theorem multi_target_fetch_promise_all (serverCfg : FetchConfigO) (st : ServerState)
    (ids : List String) (event : String) (data : JValue) (config : Option FetchConfigO)
    (fresh : List String) (σ : Settlement) (tos : List TargetOutcome)
    (hhr : (mergeConfig serverCfg config).hasReply.getD true = true)
    (hn : 2 ≤ ids.length)
    (htos : (fetch serverCfg st ids event data config fresh).2.2 = some tos) :
    tos.length = ids.length ∧
    fetchOverall tos σ = FetchOutcome.multi (promiseAll (tos.map (eventualOutcome σ))) ∧
    isOkB (promiseAll (tos.map (eventualOutcome σ)))
      = (tos.map (eventualOutcome σ)).all isOkB ∧
    (∀ fid, TargetOutcome.pending fid ∈ tos →
      (lookupK (fetch serverCfg st ids event data config fresh).1.pendingFetches fid).isSome
        = true) := by
  simp only [fetch, hhr] at htos ⊢
  simp only [Bool.true_eq_false, if_false, Option.some.injEq] at htos
  have hlen : tos.length = ids.length := by
    rw [← htos]
    exact fetchLoop_length _ _ _ _ _
  refine ⟨hlen, fetchOverall_multi tos σ (hlen ▸ hn), promiseAll_isOk _, ?_⟩
  intro fid hmem
  simp only [Bool.true_eq_false, if_false]
  rw [← htos] at hmem
  exact fetchLoop_pending_registered _ _ _ _ _ _ hmem

theorem multi_target_fetch_promise_all_witness :
    ([TargetOutcome.pending "f1", TargetOutcome.notFound "b"].length
        = (["a", "b"] : List String).length) ∧
    (lookupK (fetch defaultFetchConfig
        { clients := [("a", { id := "a", groups := [] })], pendingFetches := [],
          clientPendingFetches := [], groups := [] }
        ["a", "b"] "ev" JValue.null none ["f1"]).1.pendingFetches "f1").isSome = true :=
  ⟨(multi_target_fetch_promise_all defaultFetchConfig
      { clients := [("a", { id := "a", groups := [] })], pendingFetches := [],
        clientPendingFetches := [], groups := [] }
      ["a", "b"] "ev" JValue.null none
      ["f1"] (fun _ => Except.ok JValue.null)
      [TargetOutcome.pending "f1", TargetOutcome.notFound "b"]
      (by decide) (by decide) (by decide)).1,
   (multi_target_fetch_promise_all defaultFetchConfig
      { clients := [("a", { id := "a", groups := [] })], pendingFetches := [],
        clientPendingFetches := [], groups := [] }
      ["a", "b"] "ev" JValue.null none
      ["f1"] (fun _ => Except.ok JValue.null)
      [TargetOutcome.pending "f1", TargetOutcome.notFound "b"]
      (by decide) (by decide) (by decide)).2.2.2 "f1" (by decide)⟩

/-! ### Claim C8: bridge lemmas between the two group indices -/

theorem lookupK_none_memS {β : Type} (l : List (String × β)) (k : String)
    (h : lookupK l k = none) : memS (l.map Prod.fst) k = false := by
  induction l with
  | nil => simp [memS]
  | cons e rest ih =>
    by_cases he : e.1 = k
    · simp [lookupK, he] at h
    · simp only [lookupK, he, if_false] at h
      simp [memS, he, ih h]

theorem mem_of_mem_mapSet {β : Type} (l : List (String × β)) (k : String) (v : β)
    (e : String × β) (h : e ∈ mapSet l k v) : e ∈ l ∨ e = (k, v) := by
  induction l with
  | nil =>
    simp only [mapSet, List.mem_singleton] at h
    exact Or.inr h
  | cons e2 rest ih =>
    by_cases he : e2.1 = k
    · simp only [mapSet, if_pos he] at h
      rcases List.mem_cons.mp h with h1 | h2
      · exact Or.inr h1
      · exact Or.inl (List.mem_cons.mpr (Or.inr h2))
    · simp only [mapSet, if_neg he] at h
      rcases List.mem_cons.mp h with h1 | h2
      · exact Or.inl (List.mem_cons.mpr (Or.inl h1))
      · rcases ih h2 with h3 | h3
        · exact Or.inl (List.mem_cons.mpr (Or.inr h3))
        · exact Or.inr h3

theorem memS_setAdd_self (l : List String) (x : String) : memS (setAdd l x) x = true := by
  rw [memS_setAdd]
  simp

theorem setAdd_of_mem (l : List String) (x : String) (h : memS l x = true) :
    setAdd l x = l := by
  unfold setAdd
  rw [h]
  simp

theorem memS_pair (a b x : String) : memS [a, b] x = (decide (x = a) || decide (x = b)) := by
  by_cases h1 : a = x
  · subst h1
    simp [memS]
  · have h1x : ¬x = a := fun hh => h1 hh.symm
    by_cases h2 : b = x
    · subst h2
      simp [memS, h1, h1x]
    · have h2x : ¬x = b := fun hh => h2 hh.symm
      simp [memS, h1, h2, h1x, h2x]

theorem consistent_pointwise (st : ServerState) (hc : consistentB st = true) (g p : String) :
    memGroup st g p = memUserGroups st g p := by
  unfold consistentB at hc
  rw [Bool.and_eq_true] at hc
  have hc1 := List.all_eq_true.mp hc.1
  have hc2 := List.all_eq_true.mp hc.2
  cases hg : memGroup st g p with
  | true =>
    unfold memGroup at hg
    cases hl : lookupK st.groups g with
    | none =>
      rw [hl] at hg
      simp at hg
    | some ms =>
      rw [hl] at hg
      have hmem := lookupK_mem _ _ _ hl
      have hall := List.all_eq_true.mp (hc1 (g, ms) hmem)
      exact (hall p ((memS_iff _ _).mp hg)).symm
  | false =>
    cases hu : memUserGroups st g p with
    | false => rfl
    | true =>
      exfalso
      unfold memUserGroups at hu
      cases hl : lookupK st.clients p with
      | none =>
        rw [hl] at hu
        simp at hu
      | some u =>
        rw [hl] at hu
        have hmem := lookupK_mem _ _ _ hl
        have hall := List.all_eq_true.mp (hc2 (p, u) hmem)
        have h2 := hall g ((memS_iff _ _).mp hu)
        rw [hg] at h2
        exact Bool.noConfusion h2

theorem wf_parts (st : ServerState) (hwf : wfGroupsB st = true) :
    keysNodupB st.clients = true ∧ keysNodupB st.groups = true ∧
    (∀ e ∈ st.groups, nodupS e.2 = true) ∧
    (∀ e ∈ st.clients, nodupS e.2.groups = true) := by
  unfold wfGroupsB at hwf
  simp only [Bool.and_eq_true] at hwf
  exact ⟨hwf.1.1.1, hwf.1.1.2, List.all_eq_true.mp hwf.1.2, List.all_eq_true.mp hwf.2⟩

theorem consistentB_of_pointwise (st : ServerState) (hwf : wfGroupsB st = true)
    (h : ∀ g p, memGroup st g p = memUserGroups st g p) : consistentB st = true := by
  obtain ⟨hkc, hkg, hgm, hcm⟩ := wf_parts st hwf
  unfold consistentB
  rw [Bool.and_eq_true]
  constructor
  · rw [List.all_eq_true]
    intro e he
    rw [List.all_eq_true]
    intro p hp
    have hlk : lookupK st.groups e.1 = some e.2 := mem_lookupK_of_nodup _ _ _ hkg he
    have hg : memGroup st e.1 p = true := by
      unfold memGroup
      rw [hlk]
      exact (memS_iff _ _).mpr hp
    rw [← h e.1 p]
    exact hg
  · rw [List.all_eq_true]
    intro e he
    rw [List.all_eq_true]
    intro g hg
    have hlk : lookupK st.clients e.1 = some e.2 := mem_lookupK_of_nodup _ _ _ hkc he
    have hu : memUserGroups st g e.1 = true := by
      unfold memUserGroups
      rw [hlk]
      exact (memS_iff _ _).mpr hg
    rw [h g e.1]
    exact hu

theorem addGroup_ok (g p : String) (st st' : ServerState)
    (h : addGroup g p st = Except.ok st') :
    ∃ u, lookupK st.clients p = some u ∧
      st'.clients = mapSet st.clients p { u with groups := setAdd u.groups g } ∧
      st'.groups = (match lookupK st.groups g with
        | none => st.groups ++ [(g, [p])]
        | some ms => mapSet st.groups g (setAdd ms p)) ∧
      st'.pendingFetches = st.pendingFetches ∧
      st'.clientPendingFetches = st.clientPendingFetches := by
  unfold addGroup at h
  cases hl : lookupK st.clients p with
  | none =>
    rw [hl] at h
    simp at h
  | some u =>
    rw [hl] at h
    simp only [Option.isNone_some, Bool.false_eq_true, if_false, Except.ok.injEq] at h
    subst h
    exact ⟨u, rfl, rfl, rfl, rfl, rfl⟩

theorem removeGroup_ok (g p : String) (st st' : ServerState)
    (h : removeGroup g p st = Except.ok st') :
    ∃ u, lookupK st.clients p = some u ∧
      st'.clients = mapSet st.clients p { u with groups := eraseFirst u.groups g } ∧
      st'.groups = (match lookupK st.groups g with
        | none => st.groups
        | some ms =>
          if (setDel ms p).isEmpty then mapDel st.groups g
          else mapSet st.groups g (setDel ms p)) ∧
      st'.pendingFetches = st.pendingFetches ∧
      st'.clientPendingFetches = st.clientPendingFetches := by
  unfold removeGroup at h
  cases hl : lookupK st.clients p with
  | none =>
    rw [hl] at h
    simp at h
  | some u =>
    rw [hl] at h
    simp only [Option.isNone_some, Bool.false_eq_true, if_false, Except.ok.injEq] at h
    subst h
    exact ⟨u, rfl, rfl, rfl, rfl, rfl⟩

theorem addGroup_memGroup (g p : String) (st st' : ServerState)
    (h : addGroup g p st = Except.ok st') (g' p' : String) :
    memGroup st' g' p' = (memGroup st g' p' || (decide (g' = g) && decide (p' = p))) := by
  obtain ⟨u, hu, hcl, hgr, _, _⟩ := addGroup_ok g p st st' h
  unfold memGroup
  cases hl : lookupK st.groups g with
  | none =>
    rw [hl] at hgr
    simp only [] at hgr
    rw [hgr]
    by_cases hg' : g' = g
    · subst hg'
      rw [lookupK_append_none _ _ _ hl, hl]
      simp only [lookupK, if_pos rfl]
      by_cases hp' : p' = p
      · simp [memS, hp']
      · have hpp : ¬p = p' := fun hh => hp' hh.symm
        simp [memS, hp', hpp]
    · cases hl2 : lookupK st.groups g' with
      | none =>
        rw [lookupK_append_none _ _ _ hl2]
        simp only [lookupK]
        rw [if_neg (show ¬g = g' from fun hh => hg' hh.symm)]
        simp [hg']
      | some ms2 =>
        rw [lookupK_append_some _ _ _ _ hl2]
        simp [hg']
  | some ms =>
    rw [hl] at hgr
    simp only [] at hgr
    rw [hgr]
    by_cases hg' : g' = g
    · subst hg'
      rw [lookupK_mapSet_self, hl]
      simp [memS_setAdd]
    · rw [lookupK_mapSet_ne _ _ _ _ hg']
      cases hl2 : lookupK st.groups g' <;> simp [hg']

theorem addGroup_memUser (g p : String) (st st' : ServerState)
    (h : addGroup g p st = Except.ok st') (g' p' : String) :
    memUserGroups st' g' p'
      = (memUserGroups st g' p' || (decide (g' = g) && decide (p' = p))) := by
  obtain ⟨u, hu, hcl, hgr, _, _⟩ := addGroup_ok g p st st' h
  unfold memUserGroups
  rw [hcl]
  by_cases hp' : p' = p
  · subst hp'
    rw [lookupK_mapSet_self, hu]
    simp only []
    rw [memS_setAdd]
    simp
  · rw [lookupK_mapSet_ne _ _ _ _ hp']
    cases lookupK st.clients p' <;> simp [hp']

theorem removeGroup_memGroup (g p : String) (st st' : ServerState)
    (h : removeGroup g p st = Except.ok st') (g' p' : String) :
    memGroup st' g' p' = (memGroup st g' p' && !(decide (g' = g) && decide (p' = p))) := by
  obtain ⟨u, hu, hcl, hgr, _, _⟩ := removeGroup_ok g p st st' h
  unfold memGroup
  cases hl : lookupK st.groups g with
  | none =>
    rw [hl] at hgr
    simp only [] at hgr
    rw [hgr]
    by_cases hg' : g' = g
    · subst hg'
      rw [hl]
      simp
    · cases hl2 : lookupK st.groups g' <;> simp [hg']
  | some ms =>
    rw [hl] at hgr
    simp only [] at hgr
    rw [hgr]
    by_cases hg' : g' = g
    · subst hg'
      by_cases he : (setDel ms p).isEmpty
      · rw [if_pos he, lookupK_mapDel_self, hl]
        have hnil : setDel ms p = [] := by
          cases hsd : setDel ms p with
          | nil => rfl
          | cons a t =>
            rw [hsd] at he
            simp [List.isEmpty] at he
        have h0 : (memS ms p' && !decide (p' = p)) = false := by
          rw [← memS_setDel, hnil]
          rfl
        simp [h0]
      · rw [if_neg he, lookupK_mapSet_self, hl]
        simp [memS_setDel]
    · by_cases he : (setDel ms p).isEmpty
      · rw [if_pos he, lookupK_mapDel_ne _ _ _ hg']
        cases lookupK st.groups g' <;> simp [hg']
      · rw [if_neg he, lookupK_mapSet_ne _ _ _ _ hg']
        cases lookupK st.groups g' <;> simp [hg']

theorem removeGroup_memUser (g p : String) (st st' : ServerState)
    (hwf : wfGroupsB st = true) (h : removeGroup g p st = Except.ok st') (g' p' : String) :
    memUserGroups st' g' p'
      = (memUserGroups st g' p' && !(decide (g' = g) && decide (p' = p))) := by
  obtain ⟨u, hu, hcl, hgr, _, _⟩ := removeGroup_ok g p st st' h
  obtain ⟨hkc, hkg, hgm, hcm⟩ := wf_parts st hwf
  unfold memUserGroups
  rw [hcl]
  by_cases hp' : p' = p
  · subst hp'
    rw [lookupK_mapSet_self, hu]
    simp only []
    have hnod : nodupS u.groups = true := hcm (p', u) (lookupK_mem _ _ _ hu)
    rw [memS_eraseFirst_of_nodup _ _ _ hnod]
    simp
  · rw [lookupK_mapSet_ne _ _ _ _ hp']
    cases lookupK st.clients p' <;> simp [hp']

theorem addGroup_wf (g p : String) (st st' : ServerState)
    (hwf : wfGroupsB st = true) (h : addGroup g p st = Except.ok st') :
    wfGroupsB st' = true := by
  obtain ⟨hkc, hkg, hgm, hcm⟩ := wf_parts st hwf
  obtain ⟨u, hu, hcl, hgr, _, _⟩ := addGroup_ok g p st st' h
  unfold wfGroupsB
  simp only [Bool.and_eq_true]
  refine ⟨⟨⟨?_, ?_⟩, ?_⟩, ?_⟩
  · rw [hcl]
    unfold keysNodupB
    rw [keys_mapSet, hu]
    simp only [Option.isSome_some, if_true]
    exact hkc
  · cases hl : lookupK st.groups g with
    | none =>
      rw [hl] at hgr
      simp only [] at hgr
      rw [hgr]
      unfold keysNodupB
      rw [List.map_append]
      simp only [List.map_cons, List.map_nil]
      rw [nodupS_append_singleton _ _ (lookupK_none_memS _ _ hl)]
      exact hkg
    | some ms =>
      rw [hl] at hgr
      simp only [] at hgr
      rw [hgr]
      unfold keysNodupB
      rw [keys_mapSet, hl]
      simp only [Option.isSome_some, if_true]
      exact hkg
  · rw [List.all_eq_true]
    intro e he
    cases hl : lookupK st.groups g with
    | none =>
      rw [hl] at hgr
      simp only [] at hgr
      rw [hgr] at he
      rcases List.mem_append.mp he with h1 | h1
      · exact hgm e h1
      · rcases List.mem_singleton.mp h1 with rfl
        rfl
    | some ms =>
      rw [hl] at hgr
      simp only [] at hgr
      rw [hgr] at he
      rcases mem_of_mem_mapSet _ _ _ _ he with h1 | h1
      · exact hgm e h1
      · rw [h1]
        exact nodupS_setAdd _ _ (hgm (g, ms) (lookupK_mem _ _ _ hl))
  · rw [List.all_eq_true]
    intro e he
    rw [hcl] at he
    rcases mem_of_mem_mapSet _ _ _ _ he with h1 | h1
    · exact hcm e h1
    · rw [h1]
      exact nodupS_setAdd _ _ (hcm (p, u) (lookupK_mem _ _ _ hu))

theorem removeGroup_wf (g p : String) (st st' : ServerState)
    (hwf : wfGroupsB st = true) (h : removeGroup g p st = Except.ok st') :
    wfGroupsB st' = true := by
  obtain ⟨hkc, hkg, hgm, hcm⟩ := wf_parts st hwf
  obtain ⟨u, hu, hcl, hgr, _, _⟩ := removeGroup_ok g p st st' h
  unfold wfGroupsB
  simp only [Bool.and_eq_true]
  refine ⟨⟨⟨?_, ?_⟩, ?_⟩, ?_⟩
  · rw [hcl]
    unfold keysNodupB
    rw [keys_mapSet, hu]
    simp only [Option.isSome_some, if_true]
    exact hkc
  · cases hl : lookupK st.groups g with
    | none =>
      rw [hl] at hgr
      simp only [] at hgr
      rw [hgr]
      exact hkg
    | some ms =>
      rw [hl] at hgr
      simp only [] at hgr
      rw [hgr]
      by_cases he : (setDel ms p).isEmpty
      · rw [if_pos he]
        unfold keysNodupB
        rw [keys_mapDel]
        exact nodupS_setDel _ _ hkg
      · rw [if_neg he]
        unfold keysNodupB
        rw [keys_mapSet, hl]
        simp only [Option.isSome_some, if_true]
        exact hkg
  · rw [List.all_eq_true]
    intro e he
    cases hl : lookupK st.groups g with
    | none =>
      rw [hl] at hgr
      simp only [] at hgr
      rw [hgr] at he
      exact hgm e he
    | some ms =>
      rw [hl] at hgr
      simp only [] at hgr
      rw [hgr] at he
      by_cases hemp : (setDel ms p).isEmpty
      · rw [if_pos hemp] at he
        exact hgm e (mem_of_mem_mapDel _ _ _ he)
      · rw [if_neg hemp] at he
        rcases mem_of_mem_mapSet _ _ _ _ he with h1 | h1
        · exact hgm e h1
        · rw [h1]
          exact nodupS_setDel _ _ (hgm (g, ms) (lookupK_mem _ _ _ hl))
  · rw [List.all_eq_true]
    intro e he
    rw [hcl] at he
    rcases mem_of_mem_mapSet _ _ _ _ he with h1 | h1
    · exact hcm e h1
    · rw [h1]
      exact nodupS_eraseFirst _ _ (hcm (p, u) (lookupK_mem _ _ _ hu))

theorem addGroup_consistent (g p : String) (st st' : ServerState)
    (hwf : wfGroupsB st = true) (hc : consistentB st = true)
    (h : addGroup g p st = Except.ok st') : consistentB st' = true := by
  apply consistentB_of_pointwise st' (addGroup_wf g p st st' hwf h)
  intro g' p'
  rw [addGroup_memGroup g p st st' h g' p', addGroup_memUser g p st st' h g' p',
    consistent_pointwise st hc g' p']

theorem removeGroup_consistent (g p : String) (st st' : ServerState)
    (hwf : wfGroupsB st = true) (hc : consistentB st = true)
    (h : removeGroup g p st = Except.ok st') : consistentB st' = true := by
  apply consistentB_of_pointwise st' (removeGroup_wf g p st st' hwf h)
  intro g' p'
  rw [removeGroup_memGroup g p st st' h g' p', removeGroup_memUser g p st st' hwf h g' p',
    consistent_pointwise st hc g' p']

theorem mapDel_append {β : Type} (l₁ l₂ : List (String × β)) (k : String) :
    mapDel (l₁ ++ l₂) k = mapDel l₁ k ++ mapDel l₂ k := by
  induction l₁ with
  | nil => simp [mapDel]
  | cons e rest ih =>
    by_cases he : e.1 = k <;> simp [mapDel, he, ih]

theorem addGroup_then_removeGroup (g p : String) (st st' : ServerState)
    (hc : consistentB st = true) (hg : lookupK st.groups g = none)
    (h : addGroup g p st = Except.ok st') :
    removeGroup g p st' = Except.ok st := by
  obtain ⟨u, hu, hcl, hgr, hpf, hcpf⟩ := addGroup_ok g p st st' h
  rw [hg] at hgr
  simp only [] at hgr
  have hug : memS u.groups g = false := by
    have hpt := consistent_pointwise st hc g p
    unfold memGroup at hpt
    rw [hg] at hpt
    unfold memUserGroups at hpt
    rw [hu] at hpt
    exact hpt.symm
  have hadd : setAdd u.groups g = u.groups ++ [g] := by
    unfold setAdd
    rw [hug]
    simp
  unfold removeGroup
  rw [hcl, lookupK_mapSet_self]
  simp only [Option.isNone_some, Bool.false_eq_true, if_false]
  rw [hgr, lookupK_append_none _ _ _ hg]
  simp only [lookupK, eq_self_iff_true, if_true, setDel, List.isEmpty_nil]
  rw [mapDel_append, mapDel_of_lookup_none _ _ hg]
  simp only [mapDel, eq_self_iff_true, if_true, List.append_nil]
  rw [hadd, eraseFirst_append_self _ _ hug]
  have hetau : ({ id := u.id, groups := u.groups } : User) = u := rfl
  rw [hetau, mapSet_mapSet, mapSet_eq_self _ _ _ hu, hpf, hcpf]

theorem addGroup_idem (g p : String) (st st' : ServerState)
    (h : addGroup g p st = Except.ok st') : addGroup g p st' = Except.ok st' := by
  obtain ⟨u, hu, hcl, hgr, hpf, hcpf⟩ := addGroup_ok g p st st' h
  have hu2 : lookupK st'.clients p = some { u with groups := setAdd u.groups g } := by
    rw [hcl]
    exact lookupK_mapSet_self _ _ _
  have hgg : ∃ ms2, lookupK st'.groups g = some ms2 ∧ memS ms2 p = true := by
    cases hl : lookupK st.groups g with
    | none =>
      rw [hl] at hgr
      simp only [] at hgr
      refine ⟨[p], ?_, ?_⟩
      · rw [hgr, lookupK_append_none _ _ _ hl]
        simp [lookupK]
      · simp [memS]
    | some ms =>
      rw [hl] at hgr
      simp only [] at hgr
      refine ⟨setAdd ms p, ?_, memS_setAdd_self _ _⟩
      rw [hgr]
      exact lookupK_mapSet_self _ _ _
  obtain ⟨ms2, hms, hmem⟩ := hgg
  unfold addGroup
  rw [hu2]
  simp only [Option.isNone_some, Bool.false_eq_true, if_false]
  rw [hms]
  simp only []
  rw [setAdd_of_mem _ _ hmem, mapSet_eq_self _ _ _ hms,
    setAdd_of_mem _ _ (memS_setAdd_self u.groups g)]
  rw [hcl, mapSet_mapSet, ← hcl]

theorem addGroup_comm_members (g p1 p2 : String) (st st1 stA st2 stB : ServerState)
    (hg : lookupK st.groups g = none) (hp : p1 ≠ p2)
    (h1 : addGroup g p1 st = Except.ok st1) (h2 : addGroup g p2 st1 = Except.ok stA)
    (h3 : addGroup g p2 st = Except.ok st2) (h4 : addGroup g p1 st2 = Except.ok stB)
    (x : String) :
    memS (membersOf stA [g]) x = (decide (x = p1) || decide (x = p2)) ∧
    memS (membersOf stB [g]) x = (decide (x = p1) || decide (x = p2)) := by
  obtain ⟨u1, hu1, hcl1, hgr1, _, _⟩ := addGroup_ok g p1 st st1 h1
  rw [hg] at hgr1
  simp only [] at hgr1
  have hl1 : lookupK st1.groups g = some [p1] := by
    rw [hgr1, lookupK_append_none _ _ _ hg]
    simp [lookupK]
  obtain ⟨u2, hu2, hcl2, hgr2, _, _⟩ := addGroup_ok g p2 st1 stA h2
  rw [hl1] at hgr2
  simp only [] at hgr2
  have hsa1 : setAdd [p1] p2 = [p1, p2] := by
    unfold setAdd
    rw [show memS [p1] p2 = false by simp [memS, hp]]
    simp
  rw [hsa1] at hgr2
  have hlA : lookupK stA.groups g = some [p1, p2] := by
    rw [hgr2]
    exact lookupK_mapSet_self _ _ _
  obtain ⟨u3, hu3, hcl3, hgr3, _, _⟩ := addGroup_ok g p2 st st2 h3
  rw [hg] at hgr3
  simp only [] at hgr3
  have hl2 : lookupK st2.groups g = some [p2] := by
    rw [hgr3, lookupK_append_none _ _ _ hg]
    simp [lookupK]
  obtain ⟨u4, hu4, hcl4, hgr4, _, _⟩ := addGroup_ok g p1 st2 stB h4
  rw [hl2] at hgr4
  simp only [] at hgr4
  have hp21 : ¬p2 = p1 := fun hh => hp hh.symm
  have hsa2 : setAdd [p2] p1 = [p2, p1] := by
    unfold setAdd
    rw [show memS [p2] p1 = false by simp [memS, hp21]]
    simp
  rw [hsa2] at hgr4
  have hlB : lookupK stB.groups g = some [p2, p1] := by
    rw [hgr4]
    exact lookupK_mapSet_self _ _ _
  have hmA : membersOf stA [g] = [p1, p2] := by
    unfold membersOf
    simp only [List.foldl_cons, List.foldl_nil, hlA]
    simp [setAdd, memS, hp]
  have hmB : membersOf stB [g] = [p2, p1] := by
    unfold membersOf
    simp only [List.foldl_cons, List.foldl_nil, hlB]
    simp [setAdd, memS, hp21]
  rw [hmA, hmB, memS_pair, memS_pair]
  exact ⟨rfl, Bool.or_comm _ _⟩

/-- C8: for every live peer and group name, the two group indices stay
mutually consistent under join (`addGroup`) and leave (`removeGroup`): a
peer is in a group's member set iff the group name is in the peer's own
list (first conjunct, at any consistent state, and preserved by both
operations together with structural well-formedness); joining a group that
did not exist and then leaving it restores the original state exactly — in
particular group `g` no longer exists and is absent from the peer's list;
joining twice is a no-op; and after `join(g,p1)`, `join(g,p2)` in either
order the member set of `g` is `{p1, p2}`. -/
theorem group_registry_invariants (st : ServerState) (g p p1 p2 x : String)
    (hwf : wfGroupsB st = true) (hc : consistentB st = true) :
    (∀ g' p', memGroup st g' p' = memUserGroups st g' p') ∧
    (∀ st', addGroup g p st = Except.ok st' →
      consistentB st' = true ∧ wfGroupsB st' = true) ∧
    (∀ st', removeGroup g p st = Except.ok st' →
      consistentB st' = true ∧ wfGroupsB st' = true) ∧
    (lookupK st.groups g = none → ∀ st', addGroup g p st = Except.ok st' →
      removeGroup g p st' = Except.ok st) ∧
    (∀ st', addGroup g p st = Except.ok st' → addGroup g p st' = Except.ok st') ∧
    (lookupK st.groups g = none → p1 ≠ p2 →
      ∀ st1 stA st2 stB,
        addGroup g p1 st = Except.ok st1 → addGroup g p2 st1 = Except.ok stA →
        addGroup g p2 st = Except.ok st2 → addGroup g p1 st2 = Except.ok stB →
        memS (membersOf stA [g]) x = (decide (x = p1) || decide (x = p2)) ∧
        memS (membersOf stB [g]) x = (decide (x = p1) || decide (x = p2))) :=
  ⟨consistent_pointwise st hc,
   fun st' h => ⟨addGroup_consistent g p st st' hwf hc h, addGroup_wf g p st st' hwf h⟩,
   fun st' h => ⟨removeGroup_consistent g p st st' hwf hc h, removeGroup_wf g p st st' hwf h⟩,
   fun hg st' h => addGroup_then_removeGroup g p st st' hc hg h,
   fun st' h => addGroup_idem g p st st' h,
   fun hg hp st1 stA st2 stB h1 h2 h3 h4 =>
     addGroup_comm_members g p1 p2 st st1 stA st2 stB hg hp h1 h2 h3 h4 x⟩

theorem group_registry_invariants_witness :
    removeGroup "g" "p1"
        { clients := [("p1", { id := "p1", groups := ["g"] }),
                      ("p2", { id := "p2", groups := [] })],
          pendingFetches := [], clientPendingFetches := [], groups := [("g", ["p1"])] }
      = Except.ok
        { clients := [("p1", { id := "p1", groups := [] }),
                      ("p2", { id := "p2", groups := [] })],
          pendingFetches := [], clientPendingFetches := [], groups := [] } ∧
    memS (membersOf
        { clients := [("p1", { id := "p1", groups := ["g"] }),
                      ("p2", { id := "p2", groups := ["g"] })],
          pendingFetches := [], clientPendingFetches := [],
          groups := [("g", ["p1", "p2"])] }
        ["g"]) "p2"
      = (decide (("p2" : String) = "p1") || decide (("p2" : String) = "p2")) ∧
    memS (membersOf
        { clients := [("p1", { id := "p1", groups := ["g"] }),
                      ("p2", { id := "p2", groups := ["g"] })],
          pendingFetches := [], clientPendingFetches := [],
          groups := [("g", ["p2", "p1"])] }
        ["g"]) "p2"
      = (decide (("p2" : String) = "p1") || decide (("p2" : String) = "p2")) :=
  ⟨(group_registry_invariants
      { clients := [("p1", { id := "p1", groups := [] }),
                    ("p2", { id := "p2", groups := [] })],
        pendingFetches := [], clientPendingFetches := [], groups := [] }
      "g" "p1" "p1" "p2" "p2" (by decide) (by decide)).2.2.2.1 (by decide)
      { clients := [("p1", { id := "p1", groups := ["g"] }),
                    ("p2", { id := "p2", groups := [] })],
        pendingFetches := [], clientPendingFetches := [], groups := [("g", ["p1"])] }
      (by decide),
   ((group_registry_invariants
      { clients := [("p1", { id := "p1", groups := [] }),
                    ("p2", { id := "p2", groups := [] })],
        pendingFetches := [], clientPendingFetches := [], groups := [] }
      "g" "p1" "p1" "p2" "p2" (by decide) (by decide)).2.2.2.2.2 (by decide) (by decide)
      { clients := [("p1", { id := "p1", groups := ["g"] }),
                    ("p2", { id := "p2", groups := [] })],
        pendingFetches := [], clientPendingFetches := [], groups := [("g", ["p1"])] }
      { clients := [("p1", { id := "p1", groups := ["g"] }),
                    ("p2", { id := "p2", groups := ["g"] })],
        pendingFetches := [], clientPendingFetches := [],
        groups := [("g", ["p1", "p2"])] }
      { clients := [("p1", { id := "p1", groups := [] }),
                    ("p2", { id := "p2", groups := ["g"] })],
        pendingFetches := [], clientPendingFetches := [], groups := [("g", ["p2"])] }
      { clients := [("p1", { id := "p1", groups := ["g"] }),
                    ("p2", { id := "p2", groups := ["g"] })],
        pendingFetches := [], clientPendingFetches := [],
        groups := [("g", ["p2", "p1"])] }
      (by decide) (by decide) (by decide) (by decide)).1,
   ((group_registry_invariants
      { clients := [("p1", { id := "p1", groups := [] }),
                    ("p2", { id := "p2", groups := [] })],
        pendingFetches := [], clientPendingFetches := [], groups := [] }
      "g" "p1" "p1" "p2" "p2" (by decide) (by decide)).2.2.2.2.2 (by decide) (by decide)
      { clients := [("p1", { id := "p1", groups := ["g"] }),
                    ("p2", { id := "p2", groups := [] })],
        pendingFetches := [], clientPendingFetches := [], groups := [("g", ["p1"])] }
      { clients := [("p1", { id := "p1", groups := ["g"] }),
                    ("p2", { id := "p2", groups := ["g"] })],
        pendingFetches := [], clientPendingFetches := [],
        groups := [("g", ["p1", "p2"])] }
      { clients := [("p1", { id := "p1", groups := [] }),
                    ("p2", { id := "p2", groups := ["g"] })],
        pendingFetches := [], clientPendingFetches := [], groups := [("g", ["p2"])] }
      { clients := [("p1", { id := "p1", groups := ["g"] }),
                    ("p2", { id := "p2", groups := ["g"] })],
        pendingFetches := [], clientPendingFetches := [],
        groups := [("g", ["p2", "p1"])] }
      (by decide) (by decide) (by decide) (by decide)).2⟩

end MasSocket
